import Mathlib

/-!
Solana proposal writer of the chainbridge relayer.

A shallow embedding of `chains/solana/common.go` and `chains/solana/connection.go`.

* Go values are modelled by their mathematical content: `uint8`/`uint64` are `Fin`,
  `[]byte` is a list of bytes, a `[32]byte` public key is a list of exactly 32 bytes.
* Functions of the Solana SDK (serialisation, address derivation, transaction assembly)
  live outside the repository; they are the fields of `Sdk` and every theorem
  quantifies over them.
* The RPC client is an oracle: for each method, the answer to its `n`-th call. Effects
  (RPC calls, sleeps, log lines) are appended to an explicit `Trace`.
-/

namespace Chainbridge

/-! ## Basic Go types -/

/-- Go `uint8`. -/
abbrev uint8 := Fin 256

/-- Go `uint64`. -/
abbrev uint64 := Fin 18446744073709551616

/-- Go `[]byte`. -/
abbrev Bytes := List (Fin 256)

/-- Go `time.Duration`, in nanoseconds; only non-negative durations occur. -/
abbrev Duration := Nat

/-- The constant `time.Second`. -/
def Second : Duration := 1000000000

/-- A Go `error` value: a message, possibly wrapped by `fmt.Errorf("<pfx>: %w", err)`. -/
inductive Error
  | msg (text : String)
  | wrap (pfx : String) (inner : Error)
deriving DecidableEq, Repr

/-! ## `fmt.Sprintf` -/

/-- An operand handed to `Sprintf`. -/
inductive Arg
  | uint (n : Nat)
  | str (s : String)
deriving DecidableEq, Repr

/-- The formatting loop of `fmt.Sprintf` for the two verbs this package uses on
numbers and strings: `%d` prints an unsigned integer in decimal and `%s` prints a
string; every other character of the format is copied. A verb without an operand of its
kind is copied too, where Go prints a diagnostic; no call of this package does that. -/
def Sprintf.go : List Char → List Arg → List Char
  | '%' :: 'd' :: rest, Arg.uint n :: args => (Nat.repr n).data ++ Sprintf.go rest args
  | '%' :: 's' :: rest, Arg.str s :: args => s.data ++ Sprintf.go rest args
  | c :: rest, args => c :: Sprintf.go rest args
  | [], _ => []

/-- Go `fmt.Sprintf(format, args...)`. -/
def Sprintf (format : String) (args : List Arg) : String :=
  String.mk (Sprintf.go format.data args)

/-! ## SDK types -/

/-- The type `solCommon.PublicKey`, a `[32]byte`. -/
abbrev PublicKey := { bs : Bytes // bs.length = 32 }

/-- A resource id, a `[32]byte`. -/
abbrev ResourceId := { bs : Bytes // bs.length = 32 }

/-- The type `solTypes.Account`: a key pair. -/
structure Account where
  PublicKey : PublicKey
  PrivateKey : Bytes
deriving DecidableEq

/-- A value passed to `solCommon.SerializeData(interface{})` by this package. -/
inductive Data
  | publicKey (k : PublicKey)
  | uint64 (n : uint64)
deriving DecidableEq

/-- The type `solTypes.Instruction`. An instruction is represented by the SDK
constructor call that builds it, with the arguments in call order. -/
inductive Instruction
  | CreateAccountWithSeed (fromAccount newAccount baseAccount programID : PublicKey)
      (seed : String) (lamports space : uint64)
  | CreateMintProposal (bridgeProgramID bridgeAccount proposalAccount toAccount
      feeAccount : PublicKey) (resourceId : ResourceId) (amount : uint64)
      (tokenProgramID : PublicKey)
  | ApproveMintProposal (bridgeProgramID bridgeAccount bridgePda proposalAccount
      feeAccount mintAccount toAccount tokenProgramID : PublicKey)
deriving DecidableEq

/-- The type `solTypes.CreateRawTransactionParam`. -/
structure CreateRawTransactionParam where
  Instructions : List Instruction
  Signers : List Account
  FeePayer : PublicKey
  RecentBlockHash : String
deriving DecidableEq

/-- The response of `GetRecentBlockhash`; only `Blockhash` is read. -/
structure GetRecentBlockhashResponse where
  Blockhash : String
deriving DecidableEq

/-- The on-chain proposal record returned by `GetMintProposalInfo`, with the
fields this package reads. -/
structure MintProposalInfo where
  Bridge : PublicKey
  Mint : PublicKey
  To : PublicKey
  Amount : uint64
  TokenProgram : PublicKey
  DidExecute : uint8
deriving DecidableEq

/-- The pure functions and constants of the Solana SDK this package uses. -/
structure Sdk where
  /-- The function `solCommon.SerializeData`. -/
  SerializeData : Data → Except Error Bytes
  /-- The function `solCommon.CreateWithSeed`. -/
  CreateWithSeed : PublicKey → String → PublicKey → PublicKey
  /-- The method `PublicKey.ToBase58`. -/
  ToBase58 : PublicKey → String
  /-- The function `solCommon.PublicKeyFromString`. -/
  PublicKeyFromString : String → PublicKey
  /-- The function `solTypes.CreateRawTransaction`. -/
  CreateRawTransaction : CreateRawTransactionParam → Except Error Bytes
  /-- The function `solTypes.AccountFromPrivateKeyBytes`; `none` is a run-time panic. -/
  AccountFromPrivateKeyBytes : Bytes → Option Account
  /-- The constant `solClient.MintProposalInfoLengthDefault`. -/
  MintProposalInfoLengthDefault : uint64

/-! ## Effects -/

/-- Severity of a log line. -/
inductive LogLevel
  | Info
  | Warn
  | Error
deriving DecidableEq

/-- One observable effect. A log line is recorded with its level and message; its
key/value context is not recorded. -/
inductive Event
  | GetRecentBlockhash
  | GetMinimumBalanceForRentExemption (dataLen : uint64)
  | CreateRawTransaction (param : CreateRawTransactionParam)
  | SendRawTransaction (rawTx : Bytes)
  | GetMintProposalInfo (address : String)
  | Sleep (d : Duration)
  | Log (level : LogLevel) (message : String)
deriving DecidableEq

/-- The effects performed so far, oldest first. -/
abbrev Trace := List Event

/-- Is the event a `GetRecentBlockhash` call? -/
def Event.isGetRecentBlockhash : Event → Bool
  | Event.GetRecentBlockhash => true
  | _ => false

/-- Is the event a `GetMinimumBalanceForRentExemption` call? -/
def Event.isGetMinimumBalance : Event → Bool
  | Event.GetMinimumBalanceForRentExemption _ => true
  | _ => false

/-- Is the event a `CreateRawTransaction` call? -/
def Event.isCreateRawTransaction : Event → Bool
  | Event.CreateRawTransaction _ => true
  | _ => false

/-- Is the event a `SendRawTransaction` call? -/
def Event.isSendRawTransaction : Event → Bool
  | Event.SendRawTransaction _ => true
  | _ => false

/-- Is the event a `GetMintProposalInfo` call? -/
def Event.isGetMintProposalInfo : Event → Bool
  | Event.GetMintProposalInfo _ => true
  | _ => false

/-- Is the event a `time.Sleep`? -/
def Event.isSleep : Event → Bool
  | Event.Sleep _ => true
  | _ => false

/-- Time spent in the event: the duration of a sleep, nothing otherwise. -/
def Event.sleepDuration : Event → Duration
  | Event.Sleep d => d
  | _ => 0

/-- Number of `GetRecentBlockhash` calls in a trace. -/
def blockhashCalls (t : Trace) : Nat := t.countP Event.isGetRecentBlockhash

/-- Number of `GetMinimumBalanceForRentExemption` calls in a trace. -/
def rentCalls (t : Trace) : Nat := t.countP Event.isGetMinimumBalance

/-- Number of `CreateRawTransaction` calls in a trace. -/
def buildCalls (t : Trace) : Nat := t.countP Event.isCreateRawTransaction

/-- Number of `SendRawTransaction` calls in a trace. -/
def sendCalls (t : Trace) : Nat := t.countP Event.isSendRawTransaction

/-- Number of `GetMintProposalInfo` calls in a trace. -/
def queries (t : Trace) : Nat := t.countP Event.isGetMintProposalInfo

/-- Number of sleeps in a trace. -/
def sleeps (t : Trace) : Nat := t.countP Event.isSleep

/-- Total time slept in a trace. -/
def slept (t : Trace) : Duration := (t.map Event.sleepDuration).sum

/-- The RPC client `solClient.Client` as an oracle: each field gives, for every `n`,
the answer the chain gives to the `n`-th call (counting from 0) of that method. -/
structure Client where
  recentBlockhash : Nat → Except Error GetRecentBlockhashResponse
  minimumBalanceForRentExemption : Nat → uint64 → Except Error uint64
  sendRawTransaction : Nat → Bytes → Except Error String
  mintProposalInfo : Nat → String → Except Error MintProposalInfo

/-- The call `rpcClient.GetRecentBlockhash(ctx)`. -/
def Client.GetRecentBlockhash (c : Client) (t : Trace) :
    Except Error GetRecentBlockhashResponse × Trace :=
  (c.recentBlockhash (blockhashCalls t), t ++ [Event.GetRecentBlockhash])

/-- The call `rpcClient.GetMinimumBalanceForRentExemption(ctx, dataLen)`. -/
def Client.GetMinimumBalanceForRentExemption (c : Client) (dataLen : uint64) (t : Trace) :
    Except Error uint64 × Trace :=
  (c.minimumBalanceForRentExemption (rentCalls t) dataLen,
    t ++ [Event.GetMinimumBalanceForRentExemption dataLen])

/-- The call `rpcClient.SendRawTransaction(ctx, rawTx)`. -/
def Client.SendRawTransaction (c : Client) (rawTx : Bytes) (t : Trace) :
    Except Error String × Trace :=
  (c.sendRawTransaction (sendCalls t) rawTx, t ++ [Event.SendRawTransaction rawTx])

/-- The call `rpcClient.GetMintProposalInfo(ctx, address)`. -/
def Client.GetMintProposalInfo (c : Client) (address : String) (t : Trace) :
    Except Error MintProposalInfo × Trace :=
  (c.mintProposalInfo (queries t) address, t ++ [Event.GetMintProposalInfo address])

/-- The call `solTypes.CreateRawTransaction(param)`, recorded in the trace. -/
def Sdk.BuildRawTransaction (sdk : Sdk) (param : CreateRawTransactionParam) (t : Trace) :
    Except Error Bytes × Trace :=
  (sdk.CreateRawTransaction param, t ++ [Event.CreateRawTransaction param])

/-! ## Package state -/

/-- The package-level variables of common.go:18-20. `retryLimit` is a Go `int`; the loop
counter stays below it, so it never overflows. -/
structure Vars where
  retryLimit : Int
  waitTime : Duration
  backCheckLen : Int

/-- The declaration `var retryLimit = 50`. -/
def retryLimit : Int := 50

/-- The declaration `var waitTime = time.Second * 5`. -/
def waitTime : Duration := Second * 5

/-- The declaration `var backCheckLen = 10`. -/
def backCheckLen : Int := 10

/-- The package variables at their declared values. -/
def declaredVars : Vars := ⟨retryLimit, waitTime, backCheckLen⟩

/-- The type `solana.PoolClient` (shared/solana), with the fields this package reads. -/
structure PoolClient where
  FeeAccount : Account
  ProposalBaseAccount : Account
  BridgeAccountPubkey : PublicKey
  BridgePdaPubkey : PublicKey
  BridgeProgramId : PublicKey
  TokenProgramId : PublicKey

/-- Source `Connection` (connection.go:16); the logger and the stop channel are
represented by the trace and left out. -/
structure Connection where
  endpoint : String
  queryClient : Client
  poolClient : PoolClient

/-- Source `(*Connection).GetQueryClient` (connection.go:83). -/
def Connection.GetQueryClient (c : Connection) : Client := c.queryClient

/-- The receiver `writer`, with the fields the functions below read. -/
structure writer where
  conn : Connection

/-! ## Proposal address derivation -/

/-- Source `GetProposalAccountPubkey` (common.go:47). -/
def GetProposalAccountPubkey (sdk : Sdk) (baseAccount programID : PublicKey)
    (srcChainId : uint8) (depositCount : uint64) : PublicKey × String :=
  let seed := Sprintf "stafi mint proposal: %d/%d"
    [Arg.uint srcChainId.val, Arg.uint depositCount.val]
  (sdk.CreateWithSeed baseAccount seed programID, seed)

/-! ## Polling loops -/

/-- The `for` loop of `waitingForProposalExe` (common.go:62-78), entered with the
current value of `retry`. -/
def waitingForProposalExe.loop (v : Vars) (rpcClient : Client)
    (proposalAccountAddress processName : String) (retry : Int) (t : Trace) : Bool × Trace :=
  if _h : retry ≥ v.retryLimit then
    (false, t ++ [Event.Log LogLevel.Error
      (Sprintf "[%s] GetMintProposalInfo reach retry limit" [Arg.str processName])])
  else
    match rpcClient.GetMintProposalInfo proposalAccountAddress t with
    | (Except.ok proposalAccountInfo, t1) =>
      if proposalAccountInfo.DidExecute = 1 then
        (true, t1)
      else
        waitingForProposalExe.loop v rpcClient proposalAccountAddress processName (retry + 1)
          (t1 ++ [Event.Log LogLevel.Warn
              (Sprintf "[%s] proposalAccount not execute yet, waiting..." [Arg.str processName]),
            Event.Sleep v.waitTime])
    | (Except.error _, t1) =>
      waitingForProposalExe.loop v rpcClient proposalAccountAddress processName (retry + 1)
        (t1 ++ [Event.Log LogLevel.Warn
            (Sprintf "[%s] proposalAccount not execute yet, waiting..." [Arg.str processName]),
          Event.Sleep v.waitTime])
termination_by (v.retryLimit - retry).toNat
decreasing_by all_goals omega

/-- Source `(*writer).waitingForProposalExe` (common.go:60). -/
def waitingForProposalExe (v : Vars) (rpcClient : Client)
    (proposalAccountAddress processName : String) (t : Trace) : Bool × Trace :=
  waitingForProposalExe.loop v rpcClient proposalAccountAddress processName 0 t

/-- The `for` loop of `waitingForProposalAccountCreate` (common.go:84-101), entered
with the current value of `retry`. -/
def waitingForProposalAccountCreate.loop (v : Vars) (rpcClient : Client)
    (proposalAccountAddress processName : String) (retry : Int) (t : Trace) : Bool × Trace :=
  if _h : retry ≥ v.retryLimit then
    (false, t ++ [Event.Log LogLevel.Error
      (Sprintf "[%s] GetMintProposalInfo reach retry limit" [Arg.str processName])])
  else
    match rpcClient.GetMintProposalInfo proposalAccountAddress t with
    | (Except.error _, t1) =>
      waitingForProposalAccountCreate.loop v rpcClient proposalAccountAddress processName
        (retry + 1)
        (t1 ++ [Event.Log LogLevel.Warn
            (Sprintf "[%s] GetMintProposalInfo failed, waiting..." [Arg.str processName]),
          Event.Sleep v.waitTime])
    | (Except.ok _, t1) => (true, t1)
termination_by (v.retryLimit - retry).toNat
decreasing_by all_goals omega

/-- Source `(*writer).waitingForProposalAccountCreate` (common.go:82). -/
def waitingForProposalAccountCreate (v : Vars) (rpcClient : Client)
    (proposalAccountAddress processName : String) (t : Trace) : Bool × Trace :=
  waitingForProposalAccountCreate.loop v rpcClient proposalAccountAddress processName 0 t

/-! ## Proposal creation and approval -/

/-- The parameter `createProposalAccount` hands to `CreateRawTransaction`
(common.go:129-154). -/
def createProposalAccountParam (sdk : Sdk) (poolClient : PoolClient)
    (toAccountApubkey proposalAccountPubkey : PublicKey) (proposalAccountSeed : String)
    (resourceId : ResourceId) (amount : uint64) (res : GetRecentBlockhashResponse)
    (miniMumBalanceForRent : uint64) : CreateRawTransactionParam :=
  { Instructions := [
      Instruction.CreateAccountWithSeed
        poolClient.FeeAccount.PublicKey
        proposalAccountPubkey
        poolClient.ProposalBaseAccount.PublicKey
        poolClient.BridgeProgramId
        proposalAccountSeed
        miniMumBalanceForRent
        sdk.MintProposalInfoLengthDefault,
      Instruction.CreateMintProposal
        poolClient.BridgeProgramId
        poolClient.BridgeAccountPubkey
        proposalAccountPubkey
        toAccountApubkey
        poolClient.FeeAccount.PublicKey
        resourceId
        amount
        poolClient.TokenProgramId],
    Signers := [poolClient.FeeAccount, poolClient.ProposalBaseAccount],
    FeePayer := poolClient.FeeAccount.PublicKey,
    RecentBlockHash := res.Blockhash }

/-- Source `(*writer).createProposalAccount` (common.go:105). -/
def createProposalAccount (sdk : Sdk) (rpcClient : Client) (poolClient : PoolClient)
    (toAccountApubkey proposalAccountPubkey : PublicKey) (proposalAccountSeed : String)
    (resourceId : ResourceId) (amount : uint64) (processName : String) (t : Trace) :
    Bool × Trace :=
  match rpcClient.GetRecentBlockhash t with
  | (Except.error _, t1) =>
    (false, t1 ++ [Event.Log LogLevel.Error
      (Sprintf "[%s] GetRecentBlockhash failed" [Arg.str processName])])
  | (Except.ok res, t1) =>
    match rpcClient.GetMinimumBalanceForRentExemption sdk.MintProposalInfoLengthDefault t1 with
    | (Except.error _, t2) =>
      (false, t2 ++ [Event.Log LogLevel.Error
        (Sprintf "[%s] GetMinimumBalanceForRentExemption failed" [Arg.str processName])])
    | (Except.ok miniMumBalanceForRent, t2) =>
      if miniMumBalanceForRent = 0 then
        (false, t2 ++ [Event.Log LogLevel.Error
          (Sprintf "[%s] GetMinimumBalanceForRentExemption failed" [Arg.str processName])])
      else
        match sdk.BuildRawTransaction
          (createProposalAccountParam sdk poolClient toAccountApubkey proposalAccountPubkey
            proposalAccountSeed resourceId amount res miniMumBalanceForRent) t2 with
        | (Except.error _, t3) =>
          (false, t3 ++ [Event.Log LogLevel.Error
            (Sprintf "[%s] createProposalAccount CreateRawTransaction failed"
              [Arg.str processName])])
        | (Except.ok rawTx, t3) =>
          match rpcClient.SendRawTransaction rawTx t3 with
          | (Except.error _, t4) =>
            (false, t4 ++ [Event.Log LogLevel.Error
              (Sprintf "[%s] createProposalAccount SendRawTransaction failed"
                [Arg.str processName])])
          | (Except.ok _, t4) =>
            (true, t4 ++ [Event.Log LogLevel.Info
              (Sprintf "[%s] create proposal account has send" [Arg.str processName])])

/-- The parameter `approveProposal` hands to `CreateRawTransaction` (common.go:187-203). -/
def approveProposalParam (poolClient : PoolClient)
    (proposalAccountPubkey mintAccount toAccount : PublicKey)
    (res : GetRecentBlockhashResponse) : CreateRawTransactionParam :=
  { Instructions := [
      Instruction.ApproveMintProposal
        poolClient.BridgeProgramId
        poolClient.BridgeAccountPubkey
        poolClient.BridgePdaPubkey
        proposalAccountPubkey
        poolClient.FeeAccount.PublicKey
        mintAccount
        toAccount
        poolClient.TokenProgramId],
    Signers := [poolClient.FeeAccount],
    FeePayer := poolClient.FeeAccount.PublicKey,
    RecentBlockHash := res.Blockhash }

/-- Source `(*writer).approveProposal` (common.go:174). -/
def approveProposal (sdk : Sdk) (rpcClient : Client) (poolClient : PoolClient)
    (proposalAccountPubkey mintAccount toAccount : PublicKey) (processName : String)
    (t : Trace) : Bool × Trace :=
  match rpcClient.GetRecentBlockhash t with
  | (Except.error _, t1) =>
    (false, t1 ++ [Event.Log LogLevel.Error
      (Sprintf "[%s] GetRecentBlockhash failed" [Arg.str processName])])
  | (Except.ok res, t1) =>
    match sdk.BuildRawTransaction
      (approveProposalParam poolClient proposalAccountPubkey mintAccount toAccount res) t1 with
    | (Except.error _, t2) =>
      (false, t2 ++ [Event.Log LogLevel.Error
        (Sprintf "[%s] approveProposal CreateRawTransaction failed" [Arg.str processName])])
    | (Except.ok rawTx, t2) =>
      match rpcClient.SendRawTransaction rawTx t2 with
      | (Except.error _, t3) =>
        (false, t3 ++ [Event.Log LogLevel.Error
          (Sprintf "[%s] approveProposal SendRawTransaction failed" [Arg.str processName])])
      | (Except.ok _, t3) =>
        (true, t3 ++ [Event.Log LogLevel.Info
          (Sprintf "[%s] approveProposal multisig tx account has send"
            [Arg.str processName])])

/-! ## Content verification -/

/-- Source `(*writer).IsProposalExe` (common.go:225). -/
def IsProposalExe (sdk : Sdk) (w : writer) (proposalAccountPubkey : PublicKey) (t : Trace) :
    Bool × Trace :=
  match w.conn.GetQueryClient.GetMintProposalInfo (sdk.ToBase58 proposalAccountPubkey) t with
  | (Except.ok accountInfo, t1) => if accountInfo.DidExecute = 1 then (true, t1) else (false, t1)
  | (Except.error _, t1) => (false, t1)

/-- Go `bytes.Equal`. -/
def bytesEqual (a b : Bytes) : Bool := decide (a = b)

/-- Source `(*writer).CheckProposalAccount` (common.go:233). -/
def CheckProposalAccount (sdk : Sdk) (w : writer) (proposalAccountPubkey Mint To : PublicKey)
    (Amount : uint64) (t : Trace) : Bool × Trace :=
  match w.conn.GetQueryClient.GetMintProposalInfo (sdk.ToBase58 proposalAccountPubkey) t with
  | (Except.error _, t1) => (false, t1)
  | (Except.ok accountInfo, t1) =>
    match sdk.SerializeData (Data.publicKey w.conn.poolClient.BridgeAccountPubkey) with
    | Except.error _ => (false, t1)
    | Except.ok BridgeBts =>
    match sdk.SerializeData (Data.publicKey Mint) with
    | Except.error _ => (false, t1)
    | Except.ok MintBts =>
    match sdk.SerializeData (Data.publicKey To) with
    | Except.error _ => (false, t1)
    | Except.ok ToBts =>
    match sdk.SerializeData (Data.uint64 Amount) with
    | Except.error _ => (false, t1)
    | Except.ok AmountBts =>
    match sdk.SerializeData (Data.publicKey w.conn.poolClient.TokenProgramId) with
    | Except.error _ => (false, t1)
    | Except.ok TokenProgramBts =>
    match sdk.SerializeData (Data.publicKey accountInfo.Bridge) with
    | Except.error _ => (false, t1)
    | Except.ok onchainBridgeBts =>
    match sdk.SerializeData (Data.publicKey accountInfo.Mint) with
    | Except.error _ => (false, t1)
    | Except.ok onchainMintBts =>
    match sdk.SerializeData (Data.publicKey accountInfo.To) with
    | Except.error _ => (false, t1)
    | Except.ok onchainToBts =>
    match sdk.SerializeData (Data.uint64 accountInfo.Amount) with
    | Except.error _ => (false, t1)
    | Except.ok onchainAmountBts =>
    match sdk.SerializeData (Data.publicKey accountInfo.TokenProgram) with
    | Except.error _ => (false, t1)
    | Except.ok onchainTokenProgramBts =>
      if bytesEqual onchainBridgeBts BridgeBts &&
          bytesEqual onchainMintBts MintBts &&
          bytesEqual onchainToBts ToBts &&
          bytesEqual onchainAmountBts AmountBts &&
          bytesEqual onchainTokenProgramBts TokenProgramBts then
        (true, t1)
      else
        (false, t1 ++ [Event.Log LogLevel.Error "Check proposal account not equal "])

/-! ## Connection setup -/

/-- Source `core.ChainConfig` (utils/core/chain.go:18); `Symbols` is not read here and
is left out. A Go `map[string]string` is its lookup function. -/
structure ChainConfig where
  Name : String
  Id : uint8
  Endpoint : String
  EndpointList : List String
  From : String
  KeystorePath : String
  Insecure : Bool
  BlockstorePath : String
  FreshStart : Bool
  LatestBlock : Bool
  Opts : String → Option String

/-- Source `PoolAccounts` (connection.go:24): the configured names, as strings. -/
structure PoolAccounts where
  FeeAccount : String
  ProposalBaseAccount : String
  BridgeAccountPubkey : String
  BridgePdaPubkey : String
  BridgeProgramId : String
  TokenProgramId : String

/-- The type `solana.PoolAccounts` (shared/solana): the resolved accounts. -/
structure SharedPoolAccounts where
  FeeAccount : Account
  ProposalBaseAccount : Account
  BridgeAccountPubkey : PublicKey
  BridgePdaPubkey : PublicKey
  BridgeProgramId : PublicKey
  TokenProgramId : PublicKey

/-- The type `vault.Vault`, with the fields `NewConnection` reads. -/
structure Vault where
  SecretBoxWrap : String
  KeyBag : List Bytes

/-- The type `vault.SecretBoxer`. -/
structure SecretBoxer where
  WrapType : String

/-- What `NewConnection` calls outside this package and the SDK's pure functions:
the keystore package, the RPC client constructor and the pool client constructor. -/
structure Deps where
  /-- The function `vault.NewVaultFromWalletFile`. -/
  NewVaultFromWalletFile : String → Except Error Vault
  /-- The function `vault.SecretBoxerForType`. -/
  SecretBoxerForType : String → Except Error SecretBoxer
  /-- The method `(*Vault).Open`: an error, or the vault with its key bag decrypted. -/
  Open : Vault → SecretBoxer → Except Error Vault
  /-- The expression `privKey.PublicKey().String()`. -/
  PublicKeyString : Bytes → String
  /-- The function `solClient.NewClient`. -/
  NewClient : List String → Client
  /-- The function `solana.NewPoolClient`. -/
  NewPoolClient : Client → SharedPoolAccounts → PoolClient

/-- How a call ends: it returns a value, or the Go run time panics. -/
inductive Outcome (α : Type)
  | returned (a : α)
  | panicked

/-- Indexing a `map[string]string`: the zero value `""` for a missing key. -/
def indexString (m : String → Option String) (k : String) : String := (m k).getD ""

/-- Indexing a `map[string]vault.PrivateKey`: the zero value `nil` for a missing key. -/
def indexKey (m : String → Option Bytes) (k : String) : Bytes := (m k).getD []

/-- The loop of connection.go:59-62 that fills `privKeyMap` from the key bag. -/
def buildPrivKeyMap (deps : Deps) (keyBag : List Bytes) : String → Option Bytes :=
  keyBag.foldl
    (fun m privKey => fun k => if k = deps.PublicKeyString privKey then some privKey else m k)
    (fun _ => none)

/-- Source `NewConnection` (connection.go:33). -/
def NewConnection (sdk : Sdk) (deps : Deps) (cfg : ChainConfig) (t : Trace) :
    Outcome (Except Error Connection) × Trace :=
  let t1 := t ++ [Event.Log LogLevel.Info "NewConnection"]
  let pAccounts : PoolAccounts :=
    { FeeAccount := indexString cfg.Opts "feeAccount",
      ProposalBaseAccount := indexString cfg.Opts "proposalBaseAccount",
      BridgeAccountPubkey := indexString cfg.Opts "bridgeAccountPubkey",
      BridgePdaPubkey := indexString cfg.Opts "bridgePdaPubkey",
      BridgeProgramId := indexString cfg.Opts "bridgeProgramId",
      TokenProgramId := indexString cfg.Opts "TokenProgramId" }
  let KeystorePath :=
    if !(cfg.KeystorePath.endsWith "/") then cfg.KeystorePath ++ "/" else cfg.KeystorePath
  match deps.NewVaultFromWalletFile (KeystorePath ++ cfg.From) with
  | Except.error err => (Outcome.returned (Except.error err), t1)
  | Except.ok v =>
    match deps.SecretBoxerForType v.SecretBoxWrap with
    | Except.error err => (Outcome.returned (Except.error (Error.wrap "secret boxer" err)), t1)
    | Except.ok boxer =>
      match deps.Open v boxer with
      | Except.error err => (Outcome.returned (Except.error (Error.wrap "opening" err)), t1)
      | Except.ok opened =>
        let privKeyMap := buildPrivKeyMap deps opened.KeyBag
        match sdk.AccountFromPrivateKeyBytes (indexKey privKeyMap pAccounts.FeeAccount) with
        | none => (Outcome.panicked, t1)
        | some feeAccount =>
          match sdk.AccountFromPrivateKeyBytes
            (indexKey privKeyMap pAccounts.ProposalBaseAccount) with
          | none => (Outcome.panicked, t1)
          | some proposalBaseAccount =>
            let poolAccounts : SharedPoolAccounts :=
              { FeeAccount := feeAccount,
                ProposalBaseAccount := proposalBaseAccount,
                BridgeAccountPubkey := sdk.PublicKeyFromString pAccounts.BridgeAccountPubkey,
                BridgePdaPubkey := sdk.PublicKeyFromString pAccounts.BridgePdaPubkey,
                BridgeProgramId := sdk.PublicKeyFromString pAccounts.BridgeProgramId,
                TokenProgramId := sdk.PublicKeyFromString pAccounts.TokenProgramId }
            let poolClient := deps.NewPoolClient (deps.NewClient cfg.EndpointList) poolAccounts
            (Outcome.returned (Except.ok
              { endpoint := cfg.Endpoint,
                queryClient := deps.NewClient cfg.EndpointList,
                poolClient := poolClient }), t1)

/-! ## Reference instances

A concrete SDK in the Solana layout, used to instantiate the theorems below:
a public key serialises to its 32 bytes and a `uint64` to 8 little-endian bytes. -/

/-- The `w` low-order bytes of `n`, least significant first. -/
def littleEndian : Nat → Nat → Bytes
  | 0, _ => []
  | w + 1, n => ⟨n % 256, Nat.mod_lt n (by decide)⟩ :: littleEndian w (n / 256)

/-- Canonical binary encoding of the two kinds of values compared by the check. -/
def canonicalSerialize : Data → Except Error Bytes
  | Data.publicKey k => Except.ok k.val
  | Data.uint64 n => Except.ok (littleEndian 8 n.val)

/-- The public key whose 32 bytes all equal `b`. -/
def constKey (b : Fin 256) : PublicKey := ⟨List.replicate 32 b, List.length_replicate 32 b⟩

/-- A sample SDK: canonical serialisation; a private key of 64 bytes carries its public
key in its last 32 bytes and any other length panics; a transaction without
instructions cannot be built. -/
def sampleSdk : Sdk :=
  { SerializeData := canonicalSerialize,
    CreateWithSeed := fun baseAccount _ _ => baseAccount,
    ToBase58 := fun k => String.mk (k.val.map fun b => Char.ofNat (b.val + 48)),
    PublicKeyFromString := fun s => constKey (Fin.ofNat s.length),
    CreateRawTransaction := fun param =>
      if param.Instructions = [] then Except.error (Error.msg "no instructions")
      else Except.ok (param.FeePayer.val ++ param.RecentBlockHash.data.map fun c => Fin.ofNat c.toNat),
    AccountFromPrivateKeyBytes := fun key =>
      if h : key.length = 64 then
        some { PublicKey := ⟨key.drop 32, by simp [h]⟩, PrivateKey := key }
      else none,
    MintProposalInfoLengthDefault := 170 }

/-- The events of one unsuccessful polling round: the query, the warning, the sleep. -/
def failedRound (address warning : String) (d : Duration) : List Event :=
  [Event.GetMintProposalInfo address, Event.Log LogLevel.Warn warning, Event.Sleep d]

/-- The events of `k` consecutive unsuccessful polling rounds. -/
def failedRounds : Nat → String → String → Duration → List Event
  | 0, _, _, _ => []
  | k + 1, address, warning, d =>
    failedRound address warning d ++ failedRounds k address warning d

/-- Does the answer to a query report an executed proposal: no error and
`DidExecute == 1`? -/
def executed : Except Error MintProposalInfo → Bool
  | Except.ok info => decide (info.DidExecute = 1)
  | Except.error _ => false

/-- A client whose every call fails: the chain is unreachable. -/
def downClient : Client :=
  { recentBlockhash := fun _ => Except.error (Error.msg "rpc down"),
    minimumBalanceForRentExemption := fun _ _ => Except.error (Error.msg "rpc down"),
    sendRawTransaction := fun _ _ => Except.error (Error.msg "rpc down"),
    mintProposalInfo := fun _ _ => Except.error (Error.msg "rpc down") }

/-- A sample on-chain proposal record. -/
def sampleInfo : MintProposalInfo :=
  { Bridge := constKey 1, Mint := constKey 2, To := constKey 3, Amount := 1000000,
    TokenProgram := constKey 4, DidExecute := 0 }

/-- A client of a healthy chain that holds the record `info` at every address. -/
def clientHolding (info : MintProposalInfo) : Client :=
  { recentBlockhash := fun _ => Except.ok { Blockhash := "blockhash" },
    minimumBalanceForRentExemption := fun _ _ => Except.ok 2039280,
    sendRawTransaction := fun _ _ => Except.ok "signature",
    mintProposalInfo := fun _ _ => Except.ok info }

/-- A client of a healthy chain that holds `sampleInfo` at every address. -/
def sampleClient : Client := clientHolding sampleInfo

/-- A client of a healthy chain whose rent-exemption query answers 0. -/
def zeroRentClient : Client :=
  { sampleClient with minimumBalanceForRentExemption := fun _ _ => Except.ok 0 }

/-- A client whose first `k` queries find the proposal not executed (an RPC error on even
positions, a record with `DidExecute = 0` on odd ones) and whose later queries find it
executed. -/
def lateClient (k : Nat) : Client :=
  { sampleClient with
    mintProposalInfo := fun n _ =>
      if n < k then
        if n % 2 = 0 then Except.error (Error.msg "account not found") else Except.ok sampleInfo
      else Except.ok { sampleInfo with DidExecute := 1 } }

/-- A sample pool client whose bridge account and token program are those of `sampleInfo`. -/
def samplePool : PoolClient :=
  { FeeAccount := { PublicKey := constKey 10, PrivateKey := List.replicate 64 10 },
    ProposalBaseAccount := { PublicKey := constKey 11, PrivateKey := List.replicate 64 11 },
    BridgeAccountPubkey := constKey 1,
    BridgePdaPubkey := constKey 12,
    BridgeProgramId := constKey 13,
    TokenProgramId := constKey 4 }

/-- A sample writer over `samplePool` and a chain holding the record `info`. -/
def writerOver (info : MintProposalInfo) : writer :=
  { conn := { endpoint := "http://localhost:8899", queryClient := clientHolding info,
              poolClient := samplePool } }

/-- A sample writer over `samplePool` and `sampleClient`. -/
def sampleWriter : writer := writerOver sampleInfo

/-- A sample writer whose chain is unreachable. -/
def offlineWriter : writer :=
  { conn := { endpoint := "http://localhost:8899", queryClient := downClient,
              poolClient := samplePool } }

/-- An SDK like `sampleSdk` that cannot serialise a `uint64`. -/
def failingSdk : Sdk :=
  { sampleSdk with
    SerializeData := fun d =>
      match d with
      | Data.publicKey k => Except.ok k.val
      | Data.uint64 _ => Except.error (Error.msg "unsupported type") }

/-- An SDK like `sampleSdk` whose `AccountFromPrivateKeyBytes` never panics: a key of any
other length than 64 gives the account of the zero public key. -/
def lenientSdk : Sdk :=
  { sampleSdk with
    AccountFromPrivateKeyBytes := fun key =>
      match sampleSdk.AccountFromPrivateKeyBytes key with
      | some account => some account
      | none => some { PublicKey := constKey 0, PrivateKey := key } }

/-- A keystore package over a wallet that opens without error and holds the keys
`keyBag`; a key is named by the digits of its last 32 bytes. -/
def sampleDeps (keyBag : List Bytes) : Deps :=
  { NewVaultFromWalletFile := fun _ => Except.ok { SecretBoxWrap := "passphrase", KeyBag := [] },
    SecretBoxerForType := fun wrap => Except.ok { WrapType := wrap },
    Open := fun v _ => Except.ok { v with KeyBag := keyBag },
    PublicKeyString := fun privKey =>
      String.mk ((privKey.drop 32).map fun b => Char.ofNat (b.val + 48)),
    NewClient := fun _ => sampleClient,
    NewPoolClient := fun _ accounts =>
      { FeeAccount := accounts.FeeAccount,
        ProposalBaseAccount := accounts.ProposalBaseAccount,
        BridgeAccountPubkey := accounts.BridgeAccountPubkey,
        BridgePdaPubkey := accounts.BridgePdaPubkey,
        BridgeProgramId := accounts.BridgeProgramId,
        TokenProgramId := accounts.TokenProgramId } }

/-- A keystore package whose wallet file cannot be read. -/
def missingWalletDeps : Deps :=
  { sampleDeps [] with
    NewVaultFromWalletFile := fun _ => Except.error (Error.msg "no such file") }

/-- A configuration naming the roles `fee` and `base`. -/
def sampleConfig : ChainConfig :=
  { Name := "solana", Id := 2, Endpoint := "http://localhost:8899",
    EndpointList := ["http://localhost:8899"], From := "relayer.json",
    KeystorePath := "keys", Insecure := false, BlockstorePath := "", FreshStart := false,
    LatestBlock := false,
    Opts := fun k =>
      if k = "feeAccount" then some "fee"
      else if k = "proposalBaseAccount" then some "base"
      else none }

/-- Decimal digits of a number, most significant first. -/
def decimal (n : Nat) : List Char :=
  if n < 10 then [Nat.digitChar n] else decimal (n / 10) ++ [Nat.digitChar (n % 10)]
decreasing_by omega

/-! ## Decimal rendering -/

/-- With enough fuel the core digit loop of `Nat.repr` prepends `decimal n`. -/
theorem toDigitsCore_eq_decimal (f : Nat) : ∀ (n : Nat) (acc : List Char), n < f →
    Nat.toDigitsCore 10 f n acc = decimal n ++ acc := by
  induction f with
  | zero => intro n acc h; omega
  | succ f ih =>
    intro n acc h
    rw [decimal]
    by_cases h10 : n < 10
    · have hz : n / 10 = 0 := by omega
      have hm : n % 10 = n := by omega
      simp [Nat.toDigitsCore, hz, hm, h10]
    · have hz : n / 10 ≠ 0 := by omega
      simp only [Nat.toDigitsCore, hz, h10, if_false]
      rw [ih (n / 10) _ (by omega)]
      simp

/-- The characters of `Nat.repr n` are `decimal n`. -/
theorem repr_data_eq_decimal (n : Nat) : (Nat.repr n).data = decimal n := by
  simp [Nat.repr, Nat.toDigits, List.asString, toDigitsCore_eq_decimal (n + 1) n [] (by omega)]

/-- Distinct digits have distinct characters. -/
theorem digitChar_inj : ∀ a b : Fin 10, Nat.digitChar a.val = Nat.digitChar b.val → a = b := by
  decide

/-- No digit character is a slash. -/
theorem digitChar_ne_slash : ∀ a : Fin 10, Nat.digitChar a.val ≠ '/' := by
  decide

/-- A decimal rendering is never empty. -/
theorem decimal_ne_nil (n : Nat) : decimal n ≠ [] := by
  rw [decimal]; split <;> simp

/-- A decimal rendering contains no slash. -/
theorem slash_not_mem_decimal : ∀ n : Nat, '/' ∉ decimal n := by
  intro n
  induction n using Nat.strong_induction_on with
  | _ n ih =>
    rw [decimal]
    split
    · rename_i h
      have := digitChar_ne_slash ⟨n, h⟩
      simpa [eq_comm] using this
    · rename_i h
      have h1 := ih (n / 10) (by omega)
      have h2 := digitChar_ne_slash ⟨n % 10, by omega⟩
      simp [h1, eq_comm, h2]
      exact fun h => h2 h.symm

/-- Decimal rendering is injective. -/
theorem decimal_injective : ∀ n m : Nat, decimal n = decimal m → n = m := by
  intro n
  induction n using Nat.strong_induction_on with
  | _ n ih =>
    intro m h
    rw [decimal, decimal.eq_1 m] at h
    by_cases hn : n < 10 <;> by_cases hm : m < 10
    · simp only [hn, hm, if_true, List.cons.injEq, and_true] at h
      have := digitChar_inj ⟨n, hn⟩ ⟨m, hm⟩ h
      exact Fin.mk.inj this
    · simp only [hn, hm, if_true, if_false] at h
      have hl := congrArg List.length h
      have hp : 0 < (decimal (m / 10)).length := List.length_pos.mpr (decimal_ne_nil (m / 10))
      simp only [List.length_cons, List.length_nil, List.length_append] at hl
      omega
    · simp only [hn, hm, if_true, if_false] at h
      have hl := congrArg List.length h
      have hp : 0 < (decimal (n / 10)).length := List.length_pos.mpr (decimal_ne_nil (n / 10))
      simp only [List.length_cons, List.length_nil, List.length_append] at hl
      omega
    · simp only [hn, hm, if_false] at h
      obtain ⟨h1, h2⟩ := List.append_inj' h rfl
      have e1 := ih (n / 10) (by omega) (m / 10) h1
      have e2 := digitChar_inj ⟨n % 10, by omega⟩ ⟨m % 10, by omega⟩ (by simpa using h2)
      have e3 : n % 10 = m % 10 := Fin.mk.inj e2
      omega

/-! ## Proposal address derivation: theorems -/

/-- The characters of the seed, in terms of `decimal`. -/
theorem seed_data (sdk : Sdk) (baseAccount programID : PublicKey) (srcChainId : uint8)
    (depositCount : uint64) :
    (GetProposalAccountPubkey sdk baseAccount programID srcChainId depositCount).2.data
      = "stafi mint proposal: ".data ++ (decimal srcChainId.val ++ '/' :: decimal depositCount.val) := by
  simp [GetProposalAccountPubkey, Sprintf, Sprintf.go, repr_data_eq_decimal]

/-- C4: the seed returned by `GetProposalAccountPubkey` is the literal
`"stafi mint proposal: "` followed by the decimal source chain id, a `/` and the decimal
deposit count; the address is `CreateWithSeed` of the base account, that seed and the
program id; the result is a function of the inputs alone; chain 1 and nonce 42 give
`"stafi mint proposal: 1/42"`. -/
theorem GetProposalAccountPubkey_spec (sdk : Sdk) (baseAccount programID : PublicKey)
    (srcChainId : uint8) (depositCount : uint64) :
    (GetProposalAccountPubkey sdk baseAccount programID srcChainId depositCount).2
        = "stafi mint proposal: " ++ Nat.repr srcChainId.val ++ "/" ++ Nat.repr depositCount.val
      ∧ (GetProposalAccountPubkey sdk baseAccount programID srcChainId depositCount).1
        = sdk.CreateWithSeed baseAccount
            ("stafi mint proposal: " ++ Nat.repr srcChainId.val ++ "/" ++ Nat.repr depositCount.val)
            programID
      ∧ (∀ (baseAccount2 programID2 : PublicKey) (srcChainId2 : uint8)
          (depositCount2 : uint64),
          baseAccount2 = baseAccount → programID2 = programID → srcChainId2 = srcChainId →
          depositCount2 = depositCount →
          GetProposalAccountPubkey sdk baseAccount2 programID2 srcChainId2 depositCount2
            = GetProposalAccountPubkey sdk baseAccount programID srcChainId depositCount)
      ∧ (GetProposalAccountPubkey sdk baseAccount programID 1 42).2
        = "stafi mint proposal: 1/42" := by
  have hseed : Sprintf "stafi mint proposal: %d/%d"
        [Arg.uint srcChainId.val, Arg.uint depositCount.val]
      = "stafi mint proposal: " ++ Nat.repr srcChainId.val ++ "/" ++ Nat.repr depositCount.val := by
    apply String.ext
    simp [Sprintf, Sprintf.go]
  refine ⟨?_, ?_, ?_, ?_⟩
  · simp only [GetProposalAccountPubkey, hseed]
  · simp only [GetProposalAccountPubkey, hseed]
  · intro b2 p2 c2 n2 hb hp hc hn
    subst hb hp hc hn
    rfl
  · rfl

/-- C10: the proposal seed determines the deposit key: equal seeds for
`(c1, n1)` and `(c2, n2)` force `c1 = c2` and `n1 = n2`, whatever the base accounts and
program ids. -/
theorem seed_injective (sdk : Sdk) (b1 p1 b2 p2 : PublicKey) (c1 c2 : uint8) (n1 n2 : uint64)
    (h : (GetProposalAccountPubkey sdk b1 p1 c1 n1).2 = (GetProposalAccountPubkey sdk b2 p2 c2 n2).2) :
    c1 = c2 ∧ n1 = n2 := by
  have hd := congrArg String.data h
  rw [seed_data, seed_data] at hd
  have h2 := List.append_cancel_left hd
  have h3 := (List.append_cons_inj_of_not_mem (slash_not_mem_decimal c1.val)
    (slash_not_mem_decimal n1.val)).mp h2
  exact ⟨Fin.ext (decimal_injective _ _ h3.1), Fin.ext (decimal_injective _ _ h3.2.2)⟩

/-- C10 at a concrete deposit key: chain 1, nonce 42. -/
theorem seed_injective_witness :
    (GetProposalAccountPubkey sampleSdk (constKey 7) (constKey 9) 1 42).2
        = (GetProposalAccountPubkey sampleSdk (constKey 3) (constKey 9) 1 42).2
      ∧ ((1 : uint8) = 1 ∧ (42 : uint64) = 42) :=
  ⟨by decide, seed_injective sampleSdk (constKey 7) (constKey 9) (constKey 3) (constKey 9) 1 1 42 42
    (by decide)⟩

/-! ## Counting effects -/

/-- Queries of a concatenated trace. -/
theorem queries_append (t l : Trace) : queries (t ++ l) = queries t + queries l := by
  simp [queries, List.countP_append]

/-- Sleeps of a concatenated trace. -/
theorem sleeps_append (t l : Trace) : sleeps (t ++ l) = sleeps t + sleeps l := by
  simp [sleeps, List.countP_append]

/-- Time slept over a concatenated trace. -/
theorem slept_append (t l : Trace) : slept (t ++ l) = slept t + slept l := by
  simp [slept, List.map_append, List.sum_append]

/-- There is one query in each failed round. -/
theorem queries_failedRounds (k : Nat) (a w : String) (d : Duration) :
    queries (failedRounds k a w d) = k := by
  induction k with
  | zero => rfl
  | succ k ih =>
    rw [failedRounds, queries_append, ih]
    simp [queries, failedRound, Event.isGetMintProposalInfo, List.countP_cons]
    omega

/-- There is one sleep in each failed round. -/
theorem sleeps_failedRounds (k : Nat) (a w : String) (d : Duration) :
    sleeps (failedRounds k a w d) = k := by
  induction k with
  | zero => rfl
  | succ k ih =>
    rw [failedRounds, sleeps_append, ih]
    simp [sleeps, failedRound, Event.isSleep, List.countP_cons]
    omega

/-- Each failed round sleeps for `d`. -/
theorem slept_failedRounds (k : Nat) (a w : String) (d : Duration) :
    slept (failedRounds k a w d) = k * d := by
  induction k with
  | zero => simp [failedRounds, slept]
  | succ k ih =>
    rw [failedRounds, slept_append, ih]
    simp [slept, failedRound, Event.sleepDuration, Nat.succ_mul]
    exact Nat.add_comm _ _

/-! ## Polling loops: theorems -/

/-- The account-creation loop with `k` iterations left and `k` failing answers ahead runs
`k` failed rounds and gives up. -/
theorem create_loop_exhausts (v : Vars) (rpcClient : Client) (address processName : String) :
    ∀ (k : Nat) (retry : Int) (t : Trace), v.retryLimit - retry = (k : Int) →
      (∀ i : Nat, i < k → ∃ e, rpcClient.mintProposalInfo (queries t + i) address = Except.error e) →
      waitingForProposalAccountCreate.loop v rpcClient address processName retry t
        = (false, t ++ failedRounds k address
            (Sprintf "[%s] GetMintProposalInfo failed, waiting..." [Arg.str processName]) v.waitTime
          ++ [Event.Log LogLevel.Error
            (Sprintf "[%s] GetMintProposalInfo reach retry limit" [Arg.str processName])]) := by
  intro k
  induction k with
  | zero =>
    intro retry t hk _
    rw [waitingForProposalAccountCreate.loop]
    have hge : retry ≥ v.retryLimit := by omega
    simp [hge, failedRounds]
  | succ k ih =>
    intro retry t hk h
    rw [waitingForProposalAccountCreate.loop]
    have hlt : ¬ retry ≥ v.retryLimit := by omega
    obtain ⟨e, he⟩ := h 0 (by omega)
    simp only [Nat.add_zero] at he
    simp only [hlt, dite_false, Client.GetMintProposalInfo, he]
    rw [ih (retry + 1) _ (by omega)]
    · simp [failedRounds, failedRound, List.append_assoc]
    · intro i hi
      obtain ⟨e2, he2⟩ := h (i + 1) (by omega)
      refine ⟨e2, ?_⟩
      rw [← he2]
      congr 1
      simp [queries_append, queries, Event.isGetMintProposalInfo, List.countP_cons]
      omega

/-- The Boolean `executed` says: no error and `DidExecute = 1`. -/
theorem executed_iff (r : Except Error MintProposalInfo) :
    executed r = true ↔ ∃ info, r = Except.ok info ∧ info.DidExecute = 1 := by
  cases r with
  | error e => simp [executed]
  | ok info => simp [executed]

/-- A failed round shifts the position of the next answer by one. -/
theorem queries_after_round (t : Trace) (address warning : String) (d : Duration) (i : Nat) :
    queries (t ++ [Event.GetMintProposalInfo address]
      ++ [Event.Log LogLevel.Warn warning, Event.Sleep d]) + i = queries t + (i + 1) := by
  simp [queries_append, queries, Event.isGetMintProposalInfo, List.countP_cons]
  omega

/-- The execution loop with `k` iterations left and `k` unexecuted answers ahead runs `k`
failed rounds and gives up. -/
theorem exe_loop_exhausts (v : Vars) (rpcClient : Client) (address processName : String) :
    ∀ (k : Nat) (retry : Int) (t : Trace), v.retryLimit - retry = (k : Int) →
      (∀ i : Nat, i < k → executed (rpcClient.mintProposalInfo (queries t + i) address) = false) →
      waitingForProposalExe.loop v rpcClient address processName retry t
        = (false, t ++ failedRounds k address
            (Sprintf "[%s] proposalAccount not execute yet, waiting..." [Arg.str processName])
            v.waitTime
          ++ [Event.Log LogLevel.Error
            (Sprintf "[%s] GetMintProposalInfo reach retry limit" [Arg.str processName])]) := by
  intro k
  induction k with
  | zero =>
    intro retry t hk _
    rw [waitingForProposalExe.loop]
    have hge : retry ≥ v.retryLimit := by omega
    simp [hge, failedRounds]
  | succ k ih =>
    intro retry t hk h
    rw [waitingForProposalExe.loop]
    have hlt : ¬ retry ≥ v.retryLimit := by omega
    have h0 := h 0 (by omega)
    simp only [Nat.add_zero] at h0
    have hrec : waitingForProposalExe.loop v rpcClient address processName (retry + 1)
        (t ++ [Event.GetMintProposalInfo address]
          ++ [Event.Log LogLevel.Warn
              (Sprintf "[%s] proposalAccount not execute yet, waiting..." [Arg.str processName]),
            Event.Sleep v.waitTime])
        = (false, t ++ failedRounds (k + 1) address
            (Sprintf "[%s] proposalAccount not execute yet, waiting..." [Arg.str processName])
            v.waitTime
          ++ [Event.Log LogLevel.Error
            (Sprintf "[%s] GetMintProposalInfo reach retry limit" [Arg.str processName])]) := by
      rw [ih (retry + 1) _ (by omega)]
      · simp [failedRounds, failedRound, List.append_assoc]
      · intro i hi
        rw [queries_after_round]
        exact h (i + 1) (by omega)
    simp only [hlt, dite_false, Client.GetMintProposalInfo]
    cases hr : rpcClient.mintProposalInfo (queries t) address with
    | error e => simpa using hrec
    | ok info =>
      have hne : ¬ info.DidExecute = 1 := by
        simpa [hr, executed] using h0
      simpa [hne] using hrec

/-- The execution loop whose first executed answer is `j` positions ahead, within the limit,
runs `j` failed rounds and one successful query. -/
theorem exe_loop_first_hit (v : Vars) (rpcClient : Client) (address processName : String) :
    ∀ (j : Nat) (retry : Int) (t : Trace), (j : Int) < v.retryLimit - retry →
      executed (rpcClient.mintProposalInfo (queries t + j) address) = true →
      (∀ i : Nat, i < j → executed (rpcClient.mintProposalInfo (queries t + i) address) = false) →
      waitingForProposalExe.loop v rpcClient address processName retry t
        = (true, t ++ failedRounds j address
            (Sprintf "[%s] proposalAccount not execute yet, waiting..." [Arg.str processName])
            v.waitTime
          ++ [Event.GetMintProposalInfo address]) := by
  intro j
  induction j with
  | zero =>
    intro retry t hj hex _
    rw [waitingForProposalExe.loop]
    have hlt : ¬ retry ≥ v.retryLimit := by omega
    simp only [Nat.add_zero] at hex
    obtain ⟨info, hinfo, hdid⟩ := (executed_iff _).mp hex
    simp [hlt, Client.GetMintProposalInfo, hinfo, hdid, failedRounds]
  | succ j ih =>
    intro retry t hj hex h
    rw [waitingForProposalExe.loop]
    have hlt : ¬ retry ≥ v.retryLimit := by omega
    have h0 := h 0 (by omega)
    simp only [Nat.add_zero] at h0
    have hrec : waitingForProposalExe.loop v rpcClient address processName (retry + 1)
        (t ++ [Event.GetMintProposalInfo address]
          ++ [Event.Log LogLevel.Warn
              (Sprintf "[%s] proposalAccount not execute yet, waiting..." [Arg.str processName]),
            Event.Sleep v.waitTime])
        = (true, t ++ failedRounds (j + 1) address
            (Sprintf "[%s] proposalAccount not execute yet, waiting..." [Arg.str processName])
            v.waitTime
          ++ [Event.GetMintProposalInfo address]) := by
      rw [ih (retry + 1) _ (by push_cast at hj; omega)]
      · simp [failedRounds, failedRound, List.append_assoc]
      · rw [queries_after_round]
        exact hex
      · intro i hi
        rw [queries_after_round]
        exact h (i + 1) (by omega)
    simp only [hlt, dite_false, Client.GetMintProposalInfo]
    cases hr : rpcClient.mintProposalInfo (queries t) address with
    | error e => simpa using hrec
    | ok info =>
      have hne : ¬ info.DidExecute = 1 := by
        simpa [hr, executed] using h0
      simpa [hne] using hrec

/-- Counts over `k` failed rounds followed by the retry-limit error. -/
theorem counts_exhausted (t : Trace) (k : Nat) (a w m : String) (d : Duration) :
    queries (t ++ failedRounds k a w d ++ [Event.Log LogLevel.Error m]) = queries t + k
    ∧ sleeps (t ++ failedRounds k a w d ++ [Event.Log LogLevel.Error m]) = sleeps t + k
    ∧ slept (t ++ failedRounds k a w d ++ [Event.Log LogLevel.Error m]) = slept t + k * d := by
  refine ⟨?_, ?_, ?_⟩
  · rw [queries_append, queries_append, queries_failedRounds]; rfl
  · rw [sleeps_append, sleeps_append, sleeps_failedRounds]; rfl
  · rw [slept_append, slept_append, slept_failedRounds]; rfl

/-- Counts over `k` failed rounds followed by one query. -/
theorem counts_hit (t : Trace) (k : Nat) (a w : String) (d : Duration) :
    queries (t ++ failedRounds k a w d ++ [Event.GetMintProposalInfo a]) = queries t + (k + 1)
    ∧ sleeps (t ++ failedRounds k a w d ++ [Event.GetMintProposalInfo a]) = sleeps t + k := by
  refine ⟨?_, ?_⟩
  · rw [queries_append, queries_append, queries_failedRounds]; rfl
  · rw [sleeps_append, sleeps_append, sleeps_failedRounds]; rfl

/-- C5: with `retryLimit = n ≥ 0`, when none of the `n` answers after the start
reaches the target state (account creation: every query errors; execution: every query
errors or has `DidExecute ≠ 1`), each polling loop returns `false` after exactly `n` queries
and `n` sleeps of `waitTime`, one after each query, `n * waitTime` slept in all, and then
logs the retry-limit error; the declared values 50 and 5 s give 250 s. -/
theorem polling_exhausts (v : Vars) (n : Nat) (hn : v.retryLimit = (n : Int))
    (rpcClient : Client) (address processName : String) (t : Trace) :
    ((∀ i : Nat, i < n →
        ∃ e, rpcClient.mintProposalInfo (queries t + i) address = Except.error e) →
      (waitingForProposalAccountCreate v rpcClient address processName t).1 = false
      ∧ queries (waitingForProposalAccountCreate v rpcClient address processName t).2
          = queries t + n
      ∧ sleeps (waitingForProposalAccountCreate v rpcClient address processName t).2
          = sleeps t + n
      ∧ slept (waitingForProposalAccountCreate v rpcClient address processName t).2
          = slept t + n * v.waitTime
      ∧ (waitingForProposalAccountCreate v rpcClient address processName t).2
          = t ++ failedRounds n address
              (Sprintf "[%s] GetMintProposalInfo failed, waiting..." [Arg.str processName])
              v.waitTime
            ++ [Event.Log LogLevel.Error
              (Sprintf "[%s] GetMintProposalInfo reach retry limit" [Arg.str processName])])
    ∧ ((∀ i : Nat, i < n →
        (∃ e, rpcClient.mintProposalInfo (queries t + i) address = Except.error e)
        ∨ ∃ info, rpcClient.mintProposalInfo (queries t + i) address = Except.ok info
            ∧ info.DidExecute ≠ 1) →
      (waitingForProposalExe v rpcClient address processName t).1 = false
      ∧ queries (waitingForProposalExe v rpcClient address processName t).2 = queries t + n
      ∧ sleeps (waitingForProposalExe v rpcClient address processName t).2 = sleeps t + n
      ∧ slept (waitingForProposalExe v rpcClient address processName t).2
          = slept t + n * v.waitTime
      ∧ (waitingForProposalExe v rpcClient address processName t).2
          = t ++ failedRounds n address
              (Sprintf "[%s] proposalAccount not execute yet, waiting..." [Arg.str processName])
              v.waitTime
            ++ [Event.Log LogLevel.Error
              (Sprintf "[%s] GetMintProposalInfo reach retry limit" [Arg.str processName])])
    ∧ (v.retryLimit = retryLimit → v.waitTime = waitTime → n * v.waitTime = 250 * Second) := by
  refine ⟨?_, ?_, ?_⟩
  · intro h
    have hrun := create_loop_exhausts v rpcClient address processName n 0 t (by omega) h
    unfold waitingForProposalAccountCreate
    rw [hrun]
    have hcount := counts_exhausted t n address
      (Sprintf "[%s] GetMintProposalInfo failed, waiting..." [Arg.str processName])
      (Sprintf "[%s] GetMintProposalInfo reach retry limit" [Arg.str processName]) v.waitTime
    exact ⟨rfl, hcount.1, hcount.2.1, hcount.2.2, rfl⟩
  · intro h
    have h2 : ∀ i : Nat, i < n →
        executed (rpcClient.mintProposalInfo (queries t + i) address) = false := by
      intro i hi
      rcases h i hi with ⟨e, he⟩ | ⟨info, hinfo, hdid⟩
      · simp [he, executed]
      · simp [hinfo, executed, hdid]
    have hrun := exe_loop_exhausts v rpcClient address processName n 0 t (by omega) h2
    unfold waitingForProposalExe
    rw [hrun]
    have hcount := counts_exhausted t n address
      (Sprintf "[%s] proposalAccount not execute yet, waiting..." [Arg.str processName])
      (Sprintf "[%s] GetMintProposalInfo reach retry limit" [Arg.str processName]) v.waitTime
    exact ⟨rfl, hcount.1, hcount.2.1, hcount.2.2, rfl⟩
  · intro h1 h2
    have hn2 : (n : Int) = 50 := by rw [← hn, h1]; rfl
    have hn3 : n = 50 := by omega
    rw [h2, hn3]
    decide

/-- C5 at the declared values against an unreachable chain: both loops give up after
50 queries and 250 s of sleep. -/
theorem polling_exhausts_witness :
    declaredVars.retryLimit = ((50 : Nat) : Int)
    ∧ (waitingForProposalAccountCreate declaredVars downClient "addr" "mint" []).1 = false
    ∧ queries (waitingForProposalAccountCreate declaredVars downClient "addr" "mint" []).2 = 50
    ∧ slept (waitingForProposalAccountCreate declaredVars downClient "addr" "mint" []).2
        = 250 * Second
    ∧ (waitingForProposalExe declaredVars downClient "addr" "mint" []).1 = false
    ∧ queries (waitingForProposalExe declaredVars downClient "addr" "mint" []).2 = 50
    ∧ slept (waitingForProposalExe declaredVars downClient "addr" "mint" []).2
        = 250 * Second := by
  have h := polling_exhausts declaredVars 50 rfl downClient "addr" "mint" []
  obtain ⟨hc, he, hd⟩ := h
  have hc2 := hc (fun _ _ => ⟨_, rfl⟩)
  have he2 := he (fun _ _ => Or.inl ⟨_, rfl⟩)
  have hd2 := hd rfl rfl
  refine ⟨rfl, hc2.1, ?_, ?_, he2.1, ?_, ?_⟩
  · simpa [queries] using hc2.2.1
  · rw [hc2.2.2.2.1, hd2]; simp [slept]
  · simpa [queries] using he2.2.1
  · rw [he2.2.2.2.1, hd2]; simp [slept]

/-- C9: `waitingForProposalExe` returns `true` exactly when one of the first `retryLimit`
answers has no error and `DidExecute = 1`; when the first such answer is at position `k`
it returns `true` after `k + 1` queries and `k` sleeps, every earlier answer (an RPC error
or a `DidExecute` other than 1) having cost one warning and one sleep. -/
theorem waitingForProposalExe_spec (v : Vars) (rpcClient : Client)
    (address processName : String) (t : Trace) :
    ((waitingForProposalExe v rpcClient address processName t).1 = true ↔
      ∃ i : Nat, (i : Int) < v.retryLimit ∧
        ∃ info, rpcClient.mintProposalInfo (queries t + i) address = Except.ok info
          ∧ info.DidExecute = 1)
    ∧ ∀ k : Nat, (k : Int) < v.retryLimit →
        (∃ info, rpcClient.mintProposalInfo (queries t + k) address = Except.ok info
          ∧ info.DidExecute = 1) →
        (∀ i : Nat, i < k →
          (∃ e, rpcClient.mintProposalInfo (queries t + i) address = Except.error e)
          ∨ ∃ info, rpcClient.mintProposalInfo (queries t + i) address = Except.ok info
              ∧ info.DidExecute ≠ 1) →
        (waitingForProposalExe v rpcClient address processName t).1 = true
        ∧ queries (waitingForProposalExe v rpcClient address processName t).2
            = queries t + (k + 1)
        ∧ sleeps (waitingForProposalExe v rpcClient address processName t).2 = sleeps t + k
        ∧ (waitingForProposalExe v rpcClient address processName t).2
            = t ++ failedRounds k address
                (Sprintf "[%s] proposalAccount not execute yet, waiting..."
                  [Arg.str processName])
                v.waitTime
              ++ [Event.GetMintProposalInfo address] := by
  have hit : ∀ k : Nat, (k : Int) < v.retryLimit →
      executed (rpcClient.mintProposalInfo (queries t + k) address) = true →
      (∀ i : Nat, i < k →
        executed (rpcClient.mintProposalInfo (queries t + i) address) = false) →
      waitingForProposalExe v rpcClient address processName t
        = (true, t ++ failedRounds k address
            (Sprintf "[%s] proposalAccount not execute yet, waiting..." [Arg.str processName])
            v.waitTime
          ++ [Event.GetMintProposalInfo address]) := by
    intro k hk hex hbefore
    unfold waitingForProposalExe
    exact exe_loop_first_hit v rpcClient address processName k 0 t (by omega) hex hbefore
  refine ⟨⟨?_, ?_⟩, ?_⟩
  · intro htrue
    by_contra hnone
    have hnot : ∀ i : Nat, i < v.retryLimit.toNat →
        executed (rpcClient.mintProposalInfo (queries t + i) address) = false := by
      intro i hi
      by_contra hex
      have hex2 : executed (rpcClient.mintProposalInfo (queries t + i) address) = true := by
        simpa using hex
      exact hnone ⟨i, by omega, (executed_iff _).mp hex2⟩
    by_cases hpos : 0 ≤ v.retryLimit
    · have hrun := exe_loop_exhausts v rpcClient address processName v.retryLimit.toNat 0 t
        (by omega) hnot
      unfold waitingForProposalExe at htrue
      rw [hrun] at htrue
      simp at htrue
    · unfold waitingForProposalExe at htrue
      rw [waitingForProposalExe.loop] at htrue
      have hge : (0 : Int) ≥ v.retryLimit := by omega
      simp [hge] at htrue
  · rintro ⟨i, hi, hinfo⟩
    classical
    have hex : ∃ j : Nat, executed (rpcClient.mintProposalInfo (queries t + j) address) = true :=
      ⟨i, (executed_iff _).mpr hinfo⟩
    have hrun := hit (Nat.find hex)
      (by have := Nat.find_min' hex ((executed_iff _).mpr hinfo); omega)
      (Nat.find_spec hex)
      (fun j hj => by simpa using Nat.find_min hex hj)
    rw [hrun]
  · intro k hk hinfo hbefore
    have hbefore2 : ∀ i : Nat, i < k →
        executed (rpcClient.mintProposalInfo (queries t + i) address) = false := by
      intro i hi
      rcases hbefore i hi with ⟨e, he⟩ | ⟨info, hi2, hdid⟩
      · simp [he, executed]
      · simp [hi2, executed, hdid]
    have hrun := hit k hk ((executed_iff _).mpr hinfo) hbefore2
    rw [hrun]
    have hcount := counts_hit t k address
      (Sprintf "[%s] proposalAccount not execute yet, waiting..." [Arg.str processName])
      v.waitTime
    exact ⟨rfl, hcount.1, hcount.2, rfl⟩

/-- C9 on a chain that reports execution at the third query: the wait returns `true`
after three queries and two sleeps. -/
theorem waitingForProposalExe_spec_witness :
    (waitingForProposalExe declaredVars (lateClient 2) "addr" "mint" []).1 = true
    ∧ queries (waitingForProposalExe declaredVars (lateClient 2) "addr" "mint" []).2 = 3
    ∧ sleeps (waitingForProposalExe declaredVars (lateClient 2) "addr" "mint" []).2 = 2 := by
  have h := (waitingForProposalExe_spec declaredVars (lateClient 2) "addr" "mint" []).2 2
    (by decide) ⟨_, rfl, rfl⟩
    (fun i hi => by
      match i, hi with
      | 0, _ => exact Or.inl ⟨_, rfl⟩
      | 1, _ => exact Or.inr ⟨_, rfl, by decide⟩)
  exact ⟨h.1, h.2.1, h.2.2.1⟩

/-! ## Content verification: theorems -/

/-- The check succeeds exactly when the query and all ten serialisations succeed and the
bytes agree pairwise. -/
theorem CheckProposalAccount_iff (sdk : Sdk) (w : writer)
    (proposalAccountPubkey Mint To : PublicKey) (Amount : uint64) (t : Trace) :
    (CheckProposalAccount sdk w proposalAccountPubkey Mint To Amount t).1 = true ↔
      ∃ accountInfo,
        w.conn.queryClient.mintProposalInfo (queries t) (sdk.ToBase58 proposalAccountPubkey)
          = Except.ok accountInfo
        ∧ ∃ b1 b2 b3 b4 b5 : Bytes,
          sdk.SerializeData (Data.publicKey w.conn.poolClient.BridgeAccountPubkey) = Except.ok b1
          ∧ sdk.SerializeData (Data.publicKey Mint) = Except.ok b2
          ∧ sdk.SerializeData (Data.publicKey To) = Except.ok b3
          ∧ sdk.SerializeData (Data.uint64 Amount) = Except.ok b4
          ∧ sdk.SerializeData (Data.publicKey w.conn.poolClient.TokenProgramId) = Except.ok b5
          ∧ sdk.SerializeData (Data.publicKey accountInfo.Bridge) = Except.ok b1
          ∧ sdk.SerializeData (Data.publicKey accountInfo.Mint) = Except.ok b2
          ∧ sdk.SerializeData (Data.publicKey accountInfo.To) = Except.ok b3
          ∧ sdk.SerializeData (Data.uint64 accountInfo.Amount) = Except.ok b4
          ∧ sdk.SerializeData (Data.publicKey accountInfo.TokenProgram) = Except.ok b5 := by
  unfold CheckProposalAccount
  simp only [Connection.GetQueryClient, Client.GetMintProposalInfo]
  cases hq : w.conn.queryClient.mintProposalInfo (queries t) (sdk.ToBase58 proposalAccountPubkey) with
  | error e => simp
  | ok accountInfo =>
    simp only [Except.ok.injEq, exists_eq_left']
    cases e1 : sdk.SerializeData (Data.publicKey w.conn.poolClient.BridgeAccountPubkey) with
    | error e => simp
    | ok x1 =>
    cases e2 : sdk.SerializeData (Data.publicKey Mint) with
    | error e => simp
    | ok x2 =>
    cases e3 : sdk.SerializeData (Data.publicKey To) with
    | error e => simp
    | ok x3 =>
    cases e4 : sdk.SerializeData (Data.uint64 Amount) with
    | error e => simp
    | ok x4 =>
    cases e5 : sdk.SerializeData (Data.publicKey w.conn.poolClient.TokenProgramId) with
    | error e => simp
    | ok x5 =>
    cases f1 : sdk.SerializeData (Data.publicKey accountInfo.Bridge) with
    | error e => simp
    | ok y1 =>
    cases f2 : sdk.SerializeData (Data.publicKey accountInfo.Mint) with
    | error e => simp
    | ok y2 =>
    cases f3 : sdk.SerializeData (Data.publicKey accountInfo.To) with
    | error e => simp
    | ok y3 =>
    cases f4 : sdk.SerializeData (Data.uint64 accountInfo.Amount) with
    | error e => simp
    | ok y4 =>
    cases f5 : sdk.SerializeData (Data.publicKey accountInfo.TokenProgram) with
    | error e => simp
    | ok y5 =>
      simp only [bytesEqual, Except.ok.injEq]
      constructor
      · intro h
        split at h
        · rename_i hc
          simp only [Bool.and_eq_true, decide_eq_true_eq] at hc
          obtain ⟨⟨⟨⟨c1, c2⟩, c3⟩, c4⟩, c5⟩ := hc
          exact ⟨x1, x2, x3, x4, x5, rfl, rfl, rfl, rfl, rfl, c1, c2, c3, c4, c5⟩
        · simp at h
      · rintro ⟨b1, b2, b3, b4, b5, rfl, rfl, rfl, rfl, rfl, rfl, rfl, rfl, rfl, rfl⟩
        simp

/-- The encoding `littleEndian w` produces `w` bytes. -/
theorem littleEndian_length (w n : Nat) : (littleEndian w n).length = w := by
  induction w generalizing n with
  | zero => rfl
  | succ w ih => simp [littleEndian, ih]

/-- The encoding `littleEndian w` is injective below `256 ^ w`. -/
theorem littleEndian_injective : ∀ (w a b : Nat), a < 256 ^ w → b < 256 ^ w →
    littleEndian w a = littleEndian w b → a = b := by
  intro w
  induction w with
  | zero =>
    intro a b ha hb _
    simp at ha hb
    omega
  | succ w ih =>
    intro a b ha hb h
    simp only [littleEndian, List.cons.injEq, Fin.mk.injEq] at h
    have hq := ih (a / 256) (b / 256)
      (by rw [Nat.div_lt_iff_lt_mul (by decide)]; rw [pow_succ] at ha; exact ha)
      (by rw [Nat.div_lt_iff_lt_mul (by decide)]; rw [pow_succ] at hb; exact hb) h.2
    have h1 := h.1
    omega

/-- The canonical encoding never maps two values to the same bytes. -/
theorem canonicalSerialize_injective (x y : Data) (bs : Bytes)
    (hx : canonicalSerialize x = Except.ok bs) (hy : canonicalSerialize y = Except.ok bs) :
    x = y := by
  cases x with
  | publicKey k =>
    cases y with
    | publicKey k2 =>
      simp only [canonicalSerialize, Except.ok.injEq] at hx hy
      exact congrArg Data.publicKey (Subtype.ext (hx.trans hy.symm))
    | uint64 m =>
      simp only [canonicalSerialize, Except.ok.injEq] at hx hy
      have h1 := congrArg List.length hx
      have h2 := congrArg List.length hy
      rw [littleEndian_length] at h2
      rw [k.property] at h1
      omega
  | uint64 n =>
    cases y with
    | publicKey k2 =>
      simp only [canonicalSerialize, Except.ok.injEq] at hx hy
      have h1 := congrArg List.length hx
      have h2 := congrArg List.length hy
      rw [littleEndian_length] at h1
      rw [k2.property] at h2
      omega
    | uint64 m =>
      simp only [canonicalSerialize, Except.ok.injEq] at hx hy
      have := littleEndian_injective 8 n.val m.val n.isLt m.isLt (hx.trans hy.symm)
      exact congrArg Data.uint64 (Fin.ext this)

/-- C1: when the query succeeds with a record whose five fields serialise, the check
returns `true` exactly when each expected value (bridge account, Mint, To, Amount, token
program) serialises to the same bytes as the on-chain field; so under a serialiser that
never maps two values to the same bytes, a record that differs from the expected values in
any field yields `false`. -/
theorem CheckProposalAccount_true_iff (sdk : Sdk) (w : writer)
    (proposalAccountPubkey Mint To : PublicKey) (Amount : uint64) (t : Trace)
    (accountInfo : MintProposalInfo) (b1 b2 b3 b4 b5 : Bytes)
    (hq : w.conn.queryClient.mintProposalInfo (queries t) (sdk.ToBase58 proposalAccountPubkey)
      = Except.ok accountInfo)
    (h1 : sdk.SerializeData (Data.publicKey accountInfo.Bridge) = Except.ok b1)
    (h2 : sdk.SerializeData (Data.publicKey accountInfo.Mint) = Except.ok b2)
    (h3 : sdk.SerializeData (Data.publicKey accountInfo.To) = Except.ok b3)
    (h4 : sdk.SerializeData (Data.uint64 accountInfo.Amount) = Except.ok b4)
    (h5 : sdk.SerializeData (Data.publicKey accountInfo.TokenProgram) = Except.ok b5) :
    ((CheckProposalAccount sdk w proposalAccountPubkey Mint To Amount t).1 = true ↔
      sdk.SerializeData (Data.publicKey w.conn.poolClient.BridgeAccountPubkey) = Except.ok b1
      ∧ sdk.SerializeData (Data.publicKey Mint) = Except.ok b2
      ∧ sdk.SerializeData (Data.publicKey To) = Except.ok b3
      ∧ sdk.SerializeData (Data.uint64 Amount) = Except.ok b4
      ∧ sdk.SerializeData (Data.publicKey w.conn.poolClient.TokenProgramId) = Except.ok b5)
    ∧ ((∀ (x y : Data) (bs : Bytes), sdk.SerializeData x = Except.ok bs →
          sdk.SerializeData y = Except.ok bs → x = y) →
        (accountInfo.Bridge ≠ w.conn.poolClient.BridgeAccountPubkey
          ∨ accountInfo.Mint ≠ Mint
          ∨ accountInfo.To ≠ To
          ∨ accountInfo.Amount ≠ Amount
          ∨ accountInfo.TokenProgram ≠ w.conn.poolClient.TokenProgramId) →
        (CheckProposalAccount sdk w proposalAccountPubkey Mint To Amount t).1 = false) := by
  have key : (CheckProposalAccount sdk w proposalAccountPubkey Mint To Amount t).1 = true ↔
      sdk.SerializeData (Data.publicKey w.conn.poolClient.BridgeAccountPubkey) = Except.ok b1
      ∧ sdk.SerializeData (Data.publicKey Mint) = Except.ok b2
      ∧ sdk.SerializeData (Data.publicKey To) = Except.ok b3
      ∧ sdk.SerializeData (Data.uint64 Amount) = Except.ok b4
      ∧ sdk.SerializeData (Data.publicKey w.conn.poolClient.TokenProgramId) = Except.ok b5 := by
    rw [CheckProposalAccount_iff]
    constructor
    · rintro ⟨info, hinfo, c1, c2, c3, c4, c5, e1, e2, e3, e4, e5, f1, f2, f3, f4, f5⟩
      have hi : info = accountInfo := Except.ok.inj (hinfo.symm.trans hq)
      subst hi
      have g1 : c1 = b1 := Except.ok.inj (f1.symm.trans h1)
      have g2 : c2 = b2 := Except.ok.inj (f2.symm.trans h2)
      have g3 : c3 = b3 := Except.ok.inj (f3.symm.trans h3)
      have g4 : c4 = b4 := Except.ok.inj (f4.symm.trans h4)
      have g5 : c5 = b5 := Except.ok.inj (f5.symm.trans h5)
      subst g1 g2 g3 g4 g5
      exact ⟨e1, e2, e3, e4, e5⟩
    · rintro ⟨e1, e2, e3, e4, e5⟩
      exact ⟨accountInfo, hq, b1, b2, b3, b4, b5, e1, e2, e3, e4, e5, h1, h2, h3, h4, h5⟩
  refine ⟨key, ?_⟩
  intro hinj hdiff
  cases hres : (CheckProposalAccount sdk w proposalAccountPubkey Mint To Amount t).1 with
  | false => rfl
  | true =>
    exfalso
    obtain ⟨e1, e2, e3, e4, e5⟩ := key.mp hres
    have g1 := Data.publicKey.inj (hinj _ _ _ h1 e1)
    have g2 := Data.publicKey.inj (hinj _ _ _ h2 e2)
    have g3 := Data.publicKey.inj (hinj _ _ _ h3 e3)
    have g4 := Data.uint64.inj (hinj _ _ _ h4 e4)
    have g5 := Data.publicKey.inj (hinj _ _ _ h5 e5)
    rcases hdiff with d | d | d | d | d
    · exact d g1
    · exact d g2
    · exact d g3
    · exact d g4
    · exact d g5

/-- C1 on the sample chain under the canonical encoding: the matching record is
accepted, and a record with the bridge, the mint, the recipient, the amount (off by one)
or the token program changed is rejected. -/
theorem CheckProposalAccount_true_iff_witness :
    (CheckProposalAccount sampleSdk sampleWriter (constKey 9) (constKey 2) (constKey 3)
        1000000 []).1 = true
    ∧ (CheckProposalAccount sampleSdk (writerOver { sampleInfo with Bridge := constKey 99 })
        (constKey 9) (constKey 2) (constKey 3) 1000000 []).1 = false
    ∧ (CheckProposalAccount sampleSdk (writerOver { sampleInfo with Mint := constKey 99 })
        (constKey 9) (constKey 2) (constKey 3) 1000000 []).1 = false
    ∧ (CheckProposalAccount sampleSdk (writerOver { sampleInfo with To := constKey 99 })
        (constKey 9) (constKey 2) (constKey 3) 1000000 []).1 = false
    ∧ (CheckProposalAccount sampleSdk (writerOver { sampleInfo with Amount := 1000001 })
        (constKey 9) (constKey 2) (constKey 3) 1000000 []).1 = false
    ∧ (CheckProposalAccount sampleSdk
        (writerOver { sampleInfo with TokenProgram := constKey 99 })
        (constKey 9) (constKey 2) (constKey 3) 1000000 []).1 = false :=
  ⟨(CheckProposalAccount_true_iff sampleSdk sampleWriter (constKey 9) (constKey 2) (constKey 3)
      1000000 [] sampleInfo _ _ _ _ _ rfl rfl rfl rfl rfl rfl).1.mpr ⟨rfl, rfl, rfl, rfl, rfl⟩,
   (CheckProposalAccount_true_iff sampleSdk _ (constKey 9) (constKey 2) (constKey 3)
      1000000 [] { sampleInfo with Bridge := constKey 99 } _ _ _ _ _
      rfl rfl rfl rfl rfl rfl).2 canonicalSerialize_injective (Or.inl (by decide)),
   (CheckProposalAccount_true_iff sampleSdk _ (constKey 9) (constKey 2) (constKey 3)
      1000000 [] { sampleInfo with Mint := constKey 99 } _ _ _ _ _
      rfl rfl rfl rfl rfl rfl).2 canonicalSerialize_injective (Or.inr (Or.inl (by decide))),
   (CheckProposalAccount_true_iff sampleSdk _ (constKey 9) (constKey 2) (constKey 3)
      1000000 [] { sampleInfo with To := constKey 99 } _ _ _ _ _
      rfl rfl rfl rfl rfl rfl).2 canonicalSerialize_injective
      (Or.inr (Or.inr (Or.inl (by decide)))),
   (CheckProposalAccount_true_iff sampleSdk _ (constKey 9) (constKey 2) (constKey 3)
      1000000 [] { sampleInfo with Amount := 1000001 } _ _ _ _ _
      rfl rfl rfl rfl rfl rfl).2 canonicalSerialize_injective
      (Or.inr (Or.inr (Or.inr (Or.inl (by decide))))),
   (CheckProposalAccount_true_iff sampleSdk _ (constKey 9) (constKey 2) (constKey 3)
      1000000 [] { sampleInfo with TokenProgram := constKey 99 } _ _ _ _ _
      rfl rfl rfl rfl rfl rfl).2 canonicalSerialize_injective
      (Or.inr (Or.inr (Or.inr (Or.inr (by decide)))))⟩

/-- C2: the check is reflexive: when the chain returns a record `x` whose five fields
serialise and the expected bridge account, Mint, To, Amount and token program are the
fields of `x`, the check returns `true`. -/
theorem CheckProposalAccount_refl (sdk : Sdk) (w : writer) (proposalAccountPubkey : PublicKey)
    (t : Trace) (x : MintProposalInfo)
    (hq : w.conn.queryClient.mintProposalInfo (queries t) (sdk.ToBase58 proposalAccountPubkey)
      = Except.ok x)
    (hbridge : w.conn.poolClient.BridgeAccountPubkey = x.Bridge)
    (htoken : w.conn.poolClient.TokenProgramId = x.TokenProgram)
    (h1 : ∃ b, sdk.SerializeData (Data.publicKey x.Bridge) = Except.ok b)
    (h2 : ∃ b, sdk.SerializeData (Data.publicKey x.Mint) = Except.ok b)
    (h3 : ∃ b, sdk.SerializeData (Data.publicKey x.To) = Except.ok b)
    (h4 : ∃ b, sdk.SerializeData (Data.uint64 x.Amount) = Except.ok b)
    (h5 : ∃ b, sdk.SerializeData (Data.publicKey x.TokenProgram) = Except.ok b) :
    (CheckProposalAccount sdk w proposalAccountPubkey x.Mint x.To x.Amount t).1 = true := by
  obtain ⟨b1, g1⟩ := h1
  obtain ⟨b2, g2⟩ := h2
  obtain ⟨b3, g3⟩ := h3
  obtain ⟨b4, g4⟩ := h4
  obtain ⟨b5, g5⟩ := h5
  rw [CheckProposalAccount_iff]
  exact ⟨x, hq, b1, b2, b3, b4, b5, hbridge ▸ g1, g2, g3, g4, htoken ▸ g5, g1, g2, g3, g4, g5⟩

/-- C2 on the sample chain: the record checked against its own fields is accepted. -/
theorem CheckProposalAccount_refl_witness :
    (CheckProposalAccount sampleSdk sampleWriter (constKey 9) sampleInfo.Mint sampleInfo.To
      sampleInfo.Amount []).1 = true :=
  CheckProposalAccount_refl sampleSdk sampleWriter (constKey 9) [] sampleInfo rfl rfl rfl
    ⟨_, rfl⟩ ⟨_, rfl⟩ ⟨_, rfl⟩ ⟨_, rfl⟩ ⟨_, rfl⟩

/-- C3: the check returns `false` when the proposal-account query fails, and when the
query succeeds but any one of the ten serialisations fails, on the expected side or on
the on-chain side alike, whatever the values are. -/
theorem CheckProposalAccount_false_of_failure (sdk : Sdk) (w : writer)
    (proposalAccountPubkey Mint To : PublicKey) (Amount : uint64) (t : Trace) :
    ((∃ e, w.conn.queryClient.mintProposalInfo (queries t) (sdk.ToBase58 proposalAccountPubkey)
        = Except.error e) →
      (CheckProposalAccount sdk w proposalAccountPubkey Mint To Amount t).1 = false)
    ∧ ∀ accountInfo,
        w.conn.queryClient.mintProposalInfo (queries t) (sdk.ToBase58 proposalAccountPubkey)
          = Except.ok accountInfo →
        ((∃ e, sdk.SerializeData (Data.publicKey w.conn.poolClient.BridgeAccountPubkey)
            = Except.error e)
          ∨ (∃ e, sdk.SerializeData (Data.publicKey Mint) = Except.error e)
          ∨ (∃ e, sdk.SerializeData (Data.publicKey To) = Except.error e)
          ∨ (∃ e, sdk.SerializeData (Data.uint64 Amount) = Except.error e)
          ∨ (∃ e, sdk.SerializeData (Data.publicKey w.conn.poolClient.TokenProgramId)
            = Except.error e)
          ∨ (∃ e, sdk.SerializeData (Data.publicKey accountInfo.Bridge) = Except.error e)
          ∨ (∃ e, sdk.SerializeData (Data.publicKey accountInfo.Mint) = Except.error e)
          ∨ (∃ e, sdk.SerializeData (Data.publicKey accountInfo.To) = Except.error e)
          ∨ (∃ e, sdk.SerializeData (Data.uint64 accountInfo.Amount) = Except.error e)
          ∨ (∃ e, sdk.SerializeData (Data.publicKey accountInfo.TokenProgram)
            = Except.error e)) →
        (CheckProposalAccount sdk w proposalAccountPubkey Mint To Amount t).1 = false := by
  have hfalse : ∀ b : Bool, ¬ b = true → b = false := by
    intro b hb
    cases b with
    | false => rfl
    | true => exact absurd rfl hb
  refine ⟨?_, ?_⟩
  · rintro ⟨e, he⟩
    apply hfalse
    rw [CheckProposalAccount_iff]
    rintro ⟨info, hinfo, _⟩
    rw [he] at hinfo
    cases hinfo
  · intro accountInfo hq hfail
    apply hfalse
    rw [CheckProposalAccount_iff]
    rintro ⟨info, hinfo, c1, c2, c3, c4, c5, e1, e2, e3, e4, e5, f1, f2, f3, f4, f5⟩
    have hi : info = accountInfo := Except.ok.inj (hinfo.symm.trans hq)
    subst hi
    rcases hfail with ⟨e, h⟩ | ⟨e, h⟩ | ⟨e, h⟩ | ⟨e, h⟩ | ⟨e, h⟩ | ⟨e, h⟩ | ⟨e, h⟩ | ⟨e, h⟩
      | ⟨e, h⟩ | ⟨e, h⟩
    · rw [h] at e1; cases e1
    · rw [h] at e2; cases e2
    · rw [h] at e3; cases e3
    · rw [h] at e4; cases e4
    · rw [h] at e5; cases e5
    · rw [h] at f1; cases f1
    · rw [h] at f2; cases f2
    · rw [h] at f3; cases f3
    · rw [h] at f4; cases f4
    · rw [h] at f5; cases f5

/-- C3 on samples: an unreachable chain, and an SDK that cannot serialise the expected
amount, both make the check return `false`. -/
theorem CheckProposalAccount_false_of_failure_witness :
    (CheckProposalAccount sampleSdk offlineWriter (constKey 9) (constKey 2) (constKey 3)
        1000000 []).1 = false
    ∧ (CheckProposalAccount failingSdk sampleWriter (constKey 9) (constKey 2) (constKey 3)
        1000000 []).1 = false :=
  ⟨(CheckProposalAccount_false_of_failure sampleSdk offlineWriter (constKey 9) (constKey 2)
      (constKey 3) 1000000 []).1 ⟨_, rfl⟩,
   (CheckProposalAccount_false_of_failure failingSdk sampleWriter (constKey 9) (constKey 2)
      (constKey 3) 1000000 []).2 sampleInfo rfl
      (Or.inr (Or.inr (Or.inr (Or.inl ⟨_, rfl⟩))))⟩

/-! ## Proposal creation and approval: theorems -/

/-- The six ways `createProposalAccount` can run, each with its answers, its result and the
events it adds. -/
theorem createProposalAccount_cases (sdk : Sdk) (rpcClient : Client) (poolClient : PoolClient)
    (toAccountApubkey proposalAccountPubkey : PublicKey) (proposalAccountSeed : String)
    (resourceId : ResourceId) (amount : uint64) (processName : String) (t : Trace) :
    (∃ e m, rpcClient.recentBlockhash (blockhashCalls t) = Except.error e
      ∧ createProposalAccount sdk rpcClient poolClient toAccountApubkey proposalAccountPubkey
          proposalAccountSeed resourceId amount processName t
        = (false, t ++ [Event.GetRecentBlockhash, Event.Log LogLevel.Error m]))
    ∨ (∃ res e m, rpcClient.recentBlockhash (blockhashCalls t) = Except.ok res
      ∧ rpcClient.minimumBalanceForRentExemption (rentCalls t) sdk.MintProposalInfoLengthDefault
          = Except.error e
      ∧ createProposalAccount sdk rpcClient poolClient toAccountApubkey proposalAccountPubkey
          proposalAccountSeed resourceId amount processName t
        = (false, t ++ [Event.GetRecentBlockhash,
            Event.GetMinimumBalanceForRentExemption sdk.MintProposalInfoLengthDefault,
            Event.Log LogLevel.Error m]))
    ∨ (∃ res m, rpcClient.recentBlockhash (blockhashCalls t) = Except.ok res
      ∧ rpcClient.minimumBalanceForRentExemption (rentCalls t) sdk.MintProposalInfoLengthDefault
          = Except.ok 0
      ∧ createProposalAccount sdk rpcClient poolClient toAccountApubkey proposalAccountPubkey
          proposalAccountSeed resourceId amount processName t
        = (false, t ++ [Event.GetRecentBlockhash,
            Event.GetMinimumBalanceForRentExemption sdk.MintProposalInfoLengthDefault,
            Event.Log LogLevel.Error m]))
    ∨ (∃ res rent e m, rpcClient.recentBlockhash (blockhashCalls t) = Except.ok res
      ∧ rpcClient.minimumBalanceForRentExemption (rentCalls t) sdk.MintProposalInfoLengthDefault
          = Except.ok rent
      ∧ rent ≠ 0
      ∧ sdk.CreateRawTransaction (createProposalAccountParam sdk poolClient toAccountApubkey
          proposalAccountPubkey proposalAccountSeed resourceId amount res rent) = Except.error e
      ∧ createProposalAccount sdk rpcClient poolClient toAccountApubkey proposalAccountPubkey
          proposalAccountSeed resourceId amount processName t
        = (false, t ++ [Event.GetRecentBlockhash,
            Event.GetMinimumBalanceForRentExemption sdk.MintProposalInfoLengthDefault,
            Event.CreateRawTransaction (createProposalAccountParam sdk poolClient
              toAccountApubkey proposalAccountPubkey proposalAccountSeed resourceId amount
              res rent),
            Event.Log LogLevel.Error m]))
    ∨ (∃ res rent rawTx e m, rpcClient.recentBlockhash (blockhashCalls t) = Except.ok res
      ∧ rpcClient.minimumBalanceForRentExemption (rentCalls t) sdk.MintProposalInfoLengthDefault
          = Except.ok rent
      ∧ rent ≠ 0
      ∧ sdk.CreateRawTransaction (createProposalAccountParam sdk poolClient toAccountApubkey
          proposalAccountPubkey proposalAccountSeed resourceId amount res rent) = Except.ok rawTx
      ∧ rpcClient.sendRawTransaction (sendCalls t) rawTx = Except.error e
      ∧ createProposalAccount sdk rpcClient poolClient toAccountApubkey proposalAccountPubkey
          proposalAccountSeed resourceId amount processName t
        = (false, t ++ [Event.GetRecentBlockhash,
            Event.GetMinimumBalanceForRentExemption sdk.MintProposalInfoLengthDefault,
            Event.CreateRawTransaction (createProposalAccountParam sdk poolClient
              toAccountApubkey proposalAccountPubkey proposalAccountSeed resourceId amount
              res rent),
            Event.SendRawTransaction rawTx,
            Event.Log LogLevel.Error m]))
    ∨ (∃ res rent rawTx txHash m, rpcClient.recentBlockhash (blockhashCalls t) = Except.ok res
      ∧ rpcClient.minimumBalanceForRentExemption (rentCalls t) sdk.MintProposalInfoLengthDefault
          = Except.ok rent
      ∧ rent ≠ 0
      ∧ sdk.CreateRawTransaction (createProposalAccountParam sdk poolClient toAccountApubkey
          proposalAccountPubkey proposalAccountSeed resourceId amount res rent) = Except.ok rawTx
      ∧ rpcClient.sendRawTransaction (sendCalls t) rawTx = Except.ok txHash
      ∧ createProposalAccount sdk rpcClient poolClient toAccountApubkey proposalAccountPubkey
          proposalAccountSeed resourceId amount processName t
        = (true, t ++ [Event.GetRecentBlockhash,
            Event.GetMinimumBalanceForRentExemption sdk.MintProposalInfoLengthDefault,
            Event.CreateRawTransaction (createProposalAccountParam sdk poolClient
              toAccountApubkey proposalAccountPubkey proposalAccountSeed resourceId amount
              res rent),
            Event.SendRawTransaction rawTx,
            Event.Log LogLevel.Info m])) := by
  have hrent : rentCalls (t ++ [Event.GetRecentBlockhash]) = rentCalls t := by
    simp [rentCalls, List.countP_append, Event.isGetMinimumBalance, List.countP_cons]
  have hsend : ∀ p : CreateRawTransactionParam, sendCalls (t ++ [Event.GetRecentBlockhash]
      ++ [Event.GetMinimumBalanceForRentExemption sdk.MintProposalInfoLengthDefault]
      ++ [Event.CreateRawTransaction p]) = sendCalls t := by
    intro p
    simp [sendCalls, List.countP_append, Event.isSendRawTransaction, List.countP_cons]
  unfold createProposalAccount
  simp only [Client.GetRecentBlockhash]
  cases h0 : rpcClient.recentBlockhash (blockhashCalls t) with
  | error e =>
    exact Or.inl ⟨e, Sprintf "[%s] GetRecentBlockhash failed" [Arg.str processName], rfl,
      by simp⟩
  | ok res =>
    right
    simp only [Client.GetMinimumBalanceForRentExemption, hrent]
    cases h1 : rpcClient.minimumBalanceForRentExemption (rentCalls t)
        sdk.MintProposalInfoLengthDefault with
    | error e =>
      exact Or.inl ⟨res, e,
        Sprintf "[%s] GetMinimumBalanceForRentExemption failed" [Arg.str processName],
        rfl, rfl, by simp⟩
    | ok rent =>
      right
      by_cases hz : rent = 0
      · subst hz
        exact Or.inl ⟨res,
          Sprintf "[%s] GetMinimumBalanceForRentExemption failed" [Arg.str processName],
          rfl, rfl, by simp⟩
      · right
        simp only [hz, if_false, Sdk.BuildRawTransaction]
        cases h2 : sdk.CreateRawTransaction (createProposalAccountParam sdk poolClient
            toAccountApubkey proposalAccountPubkey proposalAccountSeed resourceId amount
            res rent) with
        | error e =>
          exact Or.inl ⟨res, rent, e,
            Sprintf "[%s] createProposalAccount CreateRawTransaction failed"
              [Arg.str processName],
            rfl, rfl, hz, h2, by simp⟩
        | ok rawTx =>
          right
          simp only [Client.SendRawTransaction, hsend]
          cases h3 : rpcClient.sendRawTransaction (sendCalls t) rawTx with
          | error e =>
            exact Or.inl ⟨res, rent, rawTx, e,
              Sprintf "[%s] createProposalAccount SendRawTransaction failed"
                [Arg.str processName],
              rfl, rfl, hz, h2, h3, by simp⟩
          | ok txHash =>
            exact Or.inr ⟨res, rent, rawTx, txHash,
              Sprintf "[%s] create proposal account has send" [Arg.str processName],
              rfl, rfl, hz, h2, h3, by simp⟩

/-- C6: `createProposalAccount` returns `false` when the blockhash fetch, the
rent-exemption query (an error, or the answer 0 that the code treats as a failure alike),
the transaction construction or the broadcast fails; each of the four operations is
invoked at most once per call; nothing is built or broadcast when an earlier step has
failed; it returns `true` only when all four steps succeed, the rent answer being
non-zero, and then it does return `true` with exactly one broadcast. -/
theorem createProposalAccount_no_retry (sdk : Sdk) (rpcClient : Client)
    (poolClient : PoolClient) (toAccountApubkey proposalAccountPubkey : PublicKey)
    (proposalAccountSeed : String) (resourceId : ResourceId) (amount : uint64)
    (processName : String) (t : Trace) :
    ((∃ e, rpcClient.recentBlockhash (blockhashCalls t) = Except.error e) →
      (createProposalAccount sdk rpcClient poolClient toAccountApubkey proposalAccountPubkey
        proposalAccountSeed resourceId amount processName t).1 = false)
    ∧ (((∃ e, rpcClient.minimumBalanceForRentExemption (rentCalls t)
          sdk.MintProposalInfoLengthDefault = Except.error e)
        ∨ rpcClient.minimumBalanceForRentExemption (rentCalls t)
          sdk.MintProposalInfoLengthDefault = Except.ok 0) →
      (createProposalAccount sdk rpcClient poolClient toAccountApubkey proposalAccountPubkey
        proposalAccountSeed resourceId amount processName t).1 = false)
    ∧ (∀ res rent, rpcClient.recentBlockhash (blockhashCalls t) = Except.ok res →
        rpcClient.minimumBalanceForRentExemption (rentCalls t)
          sdk.MintProposalInfoLengthDefault = Except.ok rent →
        (∃ e, sdk.CreateRawTransaction (createProposalAccountParam sdk poolClient
          toAccountApubkey proposalAccountPubkey proposalAccountSeed resourceId amount
          res rent) = Except.error e) →
      (createProposalAccount sdk rpcClient poolClient toAccountApubkey proposalAccountPubkey
        proposalAccountSeed resourceId amount processName t).1 = false)
    ∧ (∀ res rent rawTx, rpcClient.recentBlockhash (blockhashCalls t) = Except.ok res →
        rpcClient.minimumBalanceForRentExemption (rentCalls t)
          sdk.MintProposalInfoLengthDefault = Except.ok rent →
        sdk.CreateRawTransaction (createProposalAccountParam sdk poolClient
          toAccountApubkey proposalAccountPubkey proposalAccountSeed resourceId amount
          res rent) = Except.ok rawTx →
        (∃ e, rpcClient.sendRawTransaction (sendCalls t) rawTx = Except.error e) →
      (createProposalAccount sdk rpcClient poolClient toAccountApubkey proposalAccountPubkey
        proposalAccountSeed resourceId amount processName t).1 = false)
    ∧ blockhashCalls (createProposalAccount sdk rpcClient poolClient toAccountApubkey proposalAccountPubkey
        proposalAccountSeed resourceId amount processName t).2
        ≤ blockhashCalls t + 1
    ∧ rentCalls (createProposalAccount sdk rpcClient poolClient toAccountApubkey proposalAccountPubkey
        proposalAccountSeed resourceId amount processName t).2
        ≤ rentCalls t + 1
    ∧ buildCalls (createProposalAccount sdk rpcClient poolClient toAccountApubkey proposalAccountPubkey
        proposalAccountSeed resourceId amount processName t).2
        ≤ buildCalls t + 1
    ∧ sendCalls (createProposalAccount sdk rpcClient poolClient toAccountApubkey proposalAccountPubkey
        proposalAccountSeed resourceId amount processName t).2
        ≤ sendCalls t + 1
    ∧ ((∃ e, rpcClient.recentBlockhash (blockhashCalls t) = Except.error e) →
      rentCalls (createProposalAccount sdk rpcClient poolClient toAccountApubkey proposalAccountPubkey
        proposalAccountSeed resourceId amount processName t).2 = rentCalls t)
    ∧ (((∃ e, rpcClient.recentBlockhash (blockhashCalls t) = Except.error e)
        ∨ (∃ e, rpcClient.minimumBalanceForRentExemption (rentCalls t)
          sdk.MintProposalInfoLengthDefault = Except.error e)
        ∨ rpcClient.minimumBalanceForRentExemption (rentCalls t)
          sdk.MintProposalInfoLengthDefault = Except.ok 0) →
      buildCalls (createProposalAccount sdk rpcClient poolClient toAccountApubkey proposalAccountPubkey
        proposalAccountSeed resourceId amount processName t).2 = buildCalls t)
    ∧ (((∃ e, rpcClient.recentBlockhash (blockhashCalls t) = Except.error e)
        ∨ (∃ e, rpcClient.minimumBalanceForRentExemption (rentCalls t)
          sdk.MintProposalInfoLengthDefault = Except.error e)
        ∨ rpcClient.minimumBalanceForRentExemption (rentCalls t)
          sdk.MintProposalInfoLengthDefault = Except.ok 0
        ∨ (∃ res rent e, rpcClient.recentBlockhash (blockhashCalls t) = Except.ok res
            ∧ rpcClient.minimumBalanceForRentExemption (rentCalls t)
          sdk.MintProposalInfoLengthDefault = Except.ok rent
            ∧ sdk.CreateRawTransaction (createProposalAccountParam sdk poolClient
          toAccountApubkey proposalAccountPubkey proposalAccountSeed resourceId amount
          res rent) = Except.error e)) →
      sendCalls (createProposalAccount sdk rpcClient poolClient toAccountApubkey proposalAccountPubkey
        proposalAccountSeed resourceId amount processName t).2 = sendCalls t)
    ∧ ((createProposalAccount sdk rpcClient poolClient toAccountApubkey proposalAccountPubkey
        proposalAccountSeed resourceId amount processName t).1 = true →
      ∃ res rent rawTx txHash,
        rpcClient.recentBlockhash (blockhashCalls t) = Except.ok res
        ∧ rpcClient.minimumBalanceForRentExemption (rentCalls t)
          sdk.MintProposalInfoLengthDefault = Except.ok rent
        ∧ rent ≠ 0
        ∧ sdk.CreateRawTransaction (createProposalAccountParam sdk poolClient
          toAccountApubkey proposalAccountPubkey proposalAccountSeed resourceId amount
          res rent) = Except.ok rawTx
        ∧ rpcClient.sendRawTransaction (sendCalls t) rawTx = Except.ok txHash)
    ∧ (∀ res rent rawTx txHash, rpcClient.recentBlockhash (blockhashCalls t) = Except.ok res →
        rpcClient.minimumBalanceForRentExemption (rentCalls t)
          sdk.MintProposalInfoLengthDefault = Except.ok rent →
        rent ≠ 0 →
        sdk.CreateRawTransaction (createProposalAccountParam sdk poolClient
          toAccountApubkey proposalAccountPubkey proposalAccountSeed resourceId amount
          res rent) = Except.ok rawTx →
        rpcClient.sendRawTransaction (sendCalls t) rawTx = Except.ok txHash →
      (createProposalAccount sdk rpcClient poolClient toAccountApubkey proposalAccountPubkey
        proposalAccountSeed resourceId amount processName t).1 = true
      ∧ sendCalls (createProposalAccount sdk rpcClient poolClient toAccountApubkey proposalAccountPubkey
        proposalAccountSeed resourceId amount processName t).2 = sendCalls t + 1) := by
  rcases createProposalAccount_cases sdk rpcClient poolClient toAccountApubkey
      proposalAccountPubkey proposalAccountSeed resourceId amount processName t with
    ⟨e, m, h0, hout⟩ | ⟨res, e, m, h0, h1, hout⟩ | ⟨res, m, h0, h1, hout⟩
    | ⟨res, rent, e, m, h0, h1, hz, h2, hout⟩ | ⟨res, rent, rawTx, e, m, h0, h1, hz, h2, h3, hout⟩
    | ⟨res, rent, rawTx, txHash, m, h0, h1, hz, h2, h3, hout⟩
  all_goals
    rw [hout]
    simp_all [blockhashCalls, rentCalls, buildCalls, sendCalls, List.countP_append,
      List.countP_cons, Event.isGetRecentBlockhash, Event.isGetMinimumBalance,
      Event.isCreateRawTransaction, Event.isSendRawTransaction]
  all_goals
    intros
    subst_vars
    simp_all

/-- C6 on samples: against an unreachable chain the call returns `false` after one
blockhash fetch and broadcasts nothing; a rent answer of 0 gives `false` with nothing
built or broadcast; on the healthy chain the call returns `true` with one broadcast. -/
theorem createProposalAccount_no_retry_witness :
    (createProposalAccount sampleSdk downClient samplePool (constKey 3) (constKey 9)
        "stafi mint proposal: 1/42" (constKey 0) 1000000 "mint" []).1 = false
    ∧ blockhashCalls (createProposalAccount sampleSdk downClient samplePool (constKey 3)
        (constKey 9) "stafi mint proposal: 1/42" (constKey 0) 1000000 "mint" []).2 ≤ 1
    ∧ sendCalls (createProposalAccount sampleSdk downClient samplePool (constKey 3)
        (constKey 9) "stafi mint proposal: 1/42" (constKey 0) 1000000 "mint" []).2 = 0
    ∧ (createProposalAccount sampleSdk zeroRentClient samplePool (constKey 3) (constKey 9)
        "stafi mint proposal: 1/42" (constKey 0) 1000000 "mint" []).1 = false
    ∧ buildCalls (createProposalAccount sampleSdk zeroRentClient samplePool (constKey 3)
        (constKey 9) "stafi mint proposal: 1/42" (constKey 0) 1000000 "mint" []).2 = 0
    ∧ sendCalls (createProposalAccount sampleSdk zeroRentClient samplePool (constKey 3)
        (constKey 9) "stafi mint proposal: 1/42" (constKey 0) 1000000 "mint" []).2 = 0
    ∧ (createProposalAccount sampleSdk sampleClient samplePool (constKey 3) (constKey 9)
        "stafi mint proposal: 1/42" (constKey 0) 1000000 "mint" []).1 = true
    ∧ sendCalls (createProposalAccount sampleSdk sampleClient samplePool (constKey 3)
        (constKey 9) "stafi mint proposal: 1/42" (constKey 0) 1000000 "mint" []).2 = 1 := by
  have hdown := createProposalAccount_no_retry sampleSdk downClient samplePool (constKey 3)
    (constKey 9) "stafi mint proposal: 1/42" (constKey 0) 1000000 "mint" []
  have hzero := createProposalAccount_no_retry sampleSdk zeroRentClient samplePool
    (constKey 3) (constKey 9) "stafi mint proposal: 1/42" (constKey 0) 1000000 "mint" []
  have hok := createProposalAccount_no_retry sampleSdk sampleClient samplePool (constKey 3)
    (constKey 9) "stafi mint proposal: 1/42" (constKey 0) 1000000 "mint" []
  obtain ⟨d1, _, _, _, d5, _, _, _, _, _, d11, _, _⟩ := hdown
  obtain ⟨_, z2, _, _, _, _, _, _, _, z10, z11, _, _⟩ := hzero
  obtain ⟨_, _, _, _, _, _, _, _, _, _, _, _, k13⟩ := hok
  have hgood := k13 _ 2039280 _ "signature" rfl rfl (by decide) rfl rfl
  exact ⟨d1 ⟨_, rfl⟩, d5, d11 (Or.inl ⟨_, rfl⟩), z2 (Or.inr rfl),
    z10 (Or.inr (Or.inr rfl)), z11 (Or.inr (Or.inr (Or.inl rfl))), hgood.1, hgood.2⟩

/-- The four ways `approveProposal` can run, each with its answers, its result and the
events it adds. -/
theorem approveProposal_cases (sdk : Sdk) (rpcClient : Client) (poolClient : PoolClient)
    (proposalAccountPubkey mintAccount toAccount : PublicKey) (processName : String)
    (t : Trace) :
    (∃ e m, rpcClient.recentBlockhash (blockhashCalls t) = Except.error e
      ∧ approveProposal sdk rpcClient poolClient proposalAccountPubkey mintAccount toAccount
          processName t
        = (false, t ++ [Event.GetRecentBlockhash, Event.Log LogLevel.Error m]))
    ∨ (∃ res e m, rpcClient.recentBlockhash (blockhashCalls t) = Except.ok res
      ∧ sdk.CreateRawTransaction (approveProposalParam poolClient proposalAccountPubkey
          mintAccount toAccount res) = Except.error e
      ∧ approveProposal sdk rpcClient poolClient proposalAccountPubkey mintAccount toAccount
          processName t
        = (false, t ++ [Event.GetRecentBlockhash,
            Event.CreateRawTransaction (approveProposalParam poolClient proposalAccountPubkey
              mintAccount toAccount res),
            Event.Log LogLevel.Error m]))
    ∨ (∃ res rawTx e m, rpcClient.recentBlockhash (blockhashCalls t) = Except.ok res
      ∧ sdk.CreateRawTransaction (approveProposalParam poolClient proposalAccountPubkey
          mintAccount toAccount res) = Except.ok rawTx
      ∧ rpcClient.sendRawTransaction (sendCalls t) rawTx = Except.error e
      ∧ approveProposal sdk rpcClient poolClient proposalAccountPubkey mintAccount toAccount
          processName t
        = (false, t ++ [Event.GetRecentBlockhash,
            Event.CreateRawTransaction (approveProposalParam poolClient proposalAccountPubkey
              mintAccount toAccount res),
            Event.SendRawTransaction rawTx,
            Event.Log LogLevel.Error m]))
    ∨ (∃ res rawTx txHash m, rpcClient.recentBlockhash (blockhashCalls t) = Except.ok res
      ∧ sdk.CreateRawTransaction (approveProposalParam poolClient proposalAccountPubkey
          mintAccount toAccount res) = Except.ok rawTx
      ∧ rpcClient.sendRawTransaction (sendCalls t) rawTx = Except.ok txHash
      ∧ approveProposal sdk rpcClient poolClient proposalAccountPubkey mintAccount toAccount
          processName t
        = (true, t ++ [Event.GetRecentBlockhash,
            Event.CreateRawTransaction (approveProposalParam poolClient proposalAccountPubkey
              mintAccount toAccount res),
            Event.SendRawTransaction rawTx,
            Event.Log LogLevel.Info m])) := by
  have hsend : ∀ p : CreateRawTransactionParam, sendCalls (t ++ [Event.GetRecentBlockhash]
      ++ [Event.CreateRawTransaction p]) = sendCalls t := by
    intro p
    simp [sendCalls, List.countP_append, Event.isSendRawTransaction, List.countP_cons]
  unfold approveProposal
  simp only [Client.GetRecentBlockhash]
  cases h0 : rpcClient.recentBlockhash (blockhashCalls t) with
  | error e =>
    exact Or.inl ⟨e, Sprintf "[%s] GetRecentBlockhash failed" [Arg.str processName], rfl,
      by simp⟩
  | ok res =>
    right
    simp only [Sdk.BuildRawTransaction]
    cases h1 : sdk.CreateRawTransaction (approveProposalParam poolClient proposalAccountPubkey
        mintAccount toAccount res) with
    | error e =>
      exact Or.inl ⟨res, e,
        Sprintf "[%s] approveProposal CreateRawTransaction failed" [Arg.str processName],
        rfl, h1, by simp⟩
    | ok rawTx =>
      right
      simp only [Client.SendRawTransaction, hsend]
      cases h2 : rpcClient.sendRawTransaction (sendCalls t) rawTx with
      | error e =>
        exact Or.inl ⟨res, rawTx, e,
          Sprintf "[%s] approveProposal SendRawTransaction failed" [Arg.str processName],
          rfl, h1, h2, by simp⟩
      | ok txHash =>
        exact Or.inr ⟨res, rawTx, txHash,
          Sprintf "[%s] approveProposal multisig tx account has send" [Arg.str processName],
          rfl, h1, h2, by simp⟩

/-- C7: the events `approveProposal` adds contain at most one broadcast, and a broadcast
transaction is the one `CreateRawTransaction` builds from exactly one instruction, the
approve instruction over (bridge program id, bridge account, bridge authority PDA, proposal
account, fee account public key, mint account, recipient account, token program id), with
the fee account as the only signer and the fee account's public key as fee payer; a `true`
result comes with such a broadcast. -/
theorem approveProposal_broadcast (sdk : Sdk) (rpcClient : Client) (poolClient : PoolClient)
    (proposalAccountPubkey mintAccount toAccount : PublicKey) (processName : String)
    (t : Trace) :
    ∃ added : List Event,
      (approveProposal sdk rpcClient poolClient proposalAccountPubkey mintAccount toAccount
        processName t).2 = t ++ added
      ∧ sendCalls added ≤ 1
      ∧ (∀ rawTx, Event.SendRawTransaction rawTx ∈ added →
          ∃ res, rpcClient.recentBlockhash (blockhashCalls t) = Except.ok res
            ∧ sdk.CreateRawTransaction
                { Instructions := [
                    Instruction.ApproveMintProposal
                      poolClient.BridgeProgramId
                      poolClient.BridgeAccountPubkey
                      poolClient.BridgePdaPubkey
                      proposalAccountPubkey
                      poolClient.FeeAccount.PublicKey
                      mintAccount
                      toAccount
                      poolClient.TokenProgramId],
                  Signers := [poolClient.FeeAccount],
                  FeePayer := poolClient.FeeAccount.PublicKey,
                  RecentBlockHash := res.Blockhash } = Except.ok rawTx)
      ∧ ((approveProposal sdk rpcClient poolClient proposalAccountPubkey mintAccount toAccount
          processName t).1 = true → ∃ rawTx, Event.SendRawTransaction rawTx ∈ added) := by
  rcases approveProposal_cases sdk rpcClient poolClient proposalAccountPubkey mintAccount
      toAccount processName t with
    ⟨e, m, h0, hout⟩ | ⟨res, e, m, h0, h1, hout⟩ | ⟨res, rawTx, e, m, h0, h1, h2, hout⟩
    | ⟨res, rawTx, txHash, m, h0, h1, h2, hout⟩
  · refine ⟨_, by rw [hout], ?_, ?_, ?_⟩
    · simp [sendCalls, List.countP_cons, Event.isSendRawTransaction]
    · intro rawTx hmem
      simp at hmem
    · rw [hout]; simp
  · refine ⟨_, by rw [hout], ?_, ?_, ?_⟩
    · simp [sendCalls, List.countP_cons, Event.isSendRawTransaction]
    · intro rawTx hmem
      simp at hmem
    · rw [hout]; simp
  · refine ⟨_, by rw [hout], ?_, ?_, ?_⟩
    · simp [sendCalls, List.countP_cons, Event.isSendRawTransaction]
    · intro rawTx2 hmem
      simp at hmem
      subst hmem
      exact ⟨res, h0, h1⟩
    · rw [hout]; simp
  · refine ⟨_, by rw [hout], ?_, ?_, ?_⟩
    · simp [sendCalls, List.countP_cons, Event.isSendRawTransaction]
    · intro rawTx2 hmem
      simp at hmem
      subst hmem
      exact ⟨res, h0, h1⟩
    · intro _
      exact ⟨rawTx, by simp⟩

/-- C7 on the sample chain: the approval succeeds, and the transaction it broadcasts is
the one built from the single approve instruction signed by the fee account alone. -/
theorem approveProposal_broadcast_witness :
    ∃ added : List Event,
      (approveProposal sampleSdk sampleClient samplePool (constKey 9) (constKey 2)
        (constKey 3) "mint" []).2 = added
      ∧ ∃ rawTx, Event.SendRawTransaction rawTx ∈ added
        ∧ sampleSdk.CreateRawTransaction
            { Instructions := [
                Instruction.ApproveMintProposal (constKey 13) (constKey 1) (constKey 12)
                  (constKey 9) (constKey 10) (constKey 2) (constKey 3) (constKey 4)],
              Signers := [samplePool.FeeAccount],
              FeePayer := constKey 10,
              RecentBlockHash := "blockhash" } = Except.ok rawTx := by
  obtain ⟨added, hout, _, hall, htrue⟩ := approveProposal_broadcast sampleSdk sampleClient
    samplePool (constKey 9) (constKey 2) (constKey 3) "mint" []
  obtain ⟨rawTx, hmem⟩ := htrue rfl
  obtain ⟨res, hres, hbuild⟩ := hall rawTx hmem
  have hres2 : res = { Blockhash := "blockhash" } := (Except.ok.inj hres).symm
  subst hres2
  exact ⟨added, by simpa using hout, rawTx, hmem, hbuild⟩

/-! ## Connection setup: theorems -/

/-- Filling the map from a key bag that lacks `name` leaves the entry of `name` as it was. -/
theorem buildPrivKeyMap_absent (deps : Deps) (name : String) :
    ∀ (keyBag : List Bytes) (m : String → Option Bytes),
      (∀ k ∈ keyBag, deps.PublicKeyString k ≠ name) →
      keyBag.foldl
        (fun m privKey => fun k => if k = deps.PublicKeyString privKey then some privKey else m k)
        m name = m name := by
  intro keyBag
  induction keyBag with
  | nil => intro m _; rfl
  | cons key rest ih =>
    intro m h
    rw [List.foldl_cons, ih _ (fun k hk => h k (List.mem_cons_of_mem _ hk))]
    have hne : ¬ name = deps.PublicKeyString key := fun heq =>
      h key (List.mem_cons_self _ _) heq.symm
    simp [hne]

/-- C8, as the code behaves: `NewConnection` returns an error (and no connection) exactly
when loading the wallet file, choosing the secret boxer or opening the vault fails. Once
the vault is open no role name is checked: a name absent from the key bag is looked up as
the zero-value (nil) private key, and the call ends inside `AccountFromPrivateKeyBytes`
or returns a connection, never an error. -/
theorem NewConnection_error_iff (sdk : Sdk) (deps : Deps) (cfg : ChainConfig) (t : Trace) :
    ((∃ e, (NewConnection sdk deps cfg t).1 = Outcome.returned (Except.error e)) ↔
      ((∃ e, deps.NewVaultFromWalletFile
          ((if !(cfg.KeystorePath.endsWith "/") then cfg.KeystorePath ++ "/"
            else cfg.KeystorePath) ++ cfg.From) = Except.error e)
        ∨ (∃ v e, deps.NewVaultFromWalletFile
            ((if !(cfg.KeystorePath.endsWith "/") then cfg.KeystorePath ++ "/"
              else cfg.KeystorePath) ++ cfg.From) = Except.ok v
          ∧ deps.SecretBoxerForType v.SecretBoxWrap = Except.error e)
        ∨ (∃ v boxer e, deps.NewVaultFromWalletFile
            ((if !(cfg.KeystorePath.endsWith "/") then cfg.KeystorePath ++ "/"
              else cfg.KeystorePath) ++ cfg.From) = Except.ok v
          ∧ deps.SecretBoxerForType v.SecretBoxWrap = Except.ok boxer
          ∧ deps.Open v boxer = Except.error e)))
    ∧ ∀ v boxer opened,
        deps.NewVaultFromWalletFile
          ((if !(cfg.KeystorePath.endsWith "/") then cfg.KeystorePath ++ "/"
            else cfg.KeystorePath) ++ cfg.From) = Except.ok v →
        deps.SecretBoxerForType v.SecretBoxWrap = Except.ok boxer →
        deps.Open v boxer = Except.ok opened →
        (∀ name : String, (∀ k ∈ opened.KeyBag, deps.PublicKeyString k ≠ name) →
          indexKey (buildPrivKeyMap deps opened.KeyBag) name = [])
        ∧ ((NewConnection sdk deps cfg t).1 = Outcome.panicked
          ∨ ∃ feeAccount proposalBaseAccount conn,
              sdk.AccountFromPrivateKeyBytes
                (indexKey (buildPrivKeyMap deps opened.KeyBag)
                  (indexString cfg.Opts "feeAccount")) = some feeAccount
              ∧ sdk.AccountFromPrivateKeyBytes
                (indexKey (buildPrivKeyMap deps opened.KeyBag)
                  (indexString cfg.Opts "proposalBaseAccount")) = some proposalBaseAccount
              ∧ (NewConnection sdk deps cfg t).1 = Outcome.returned (Except.ok conn)) := by
  refine ⟨?_, ?_⟩
  · unfold NewConnection
    simp only
    cases h0 : deps.NewVaultFromWalletFile
        ((if !(cfg.KeystorePath.endsWith "/") then cfg.KeystorePath ++ "/"
          else cfg.KeystorePath) ++ cfg.From) with
    | error e => simp
    | ok v =>
      cases h1 : deps.SecretBoxerForType v.SecretBoxWrap with
      | error e => simp [h1]
      | ok boxer =>
        cases h2 : deps.Open v boxer with
        | error e => simp [h1, h2]
        | ok opened =>
          simp only [h1, h2]
          cases h3 : sdk.AccountFromPrivateKeyBytes
              (indexKey (buildPrivKeyMap deps opened.KeyBag)
                (indexString cfg.Opts "feeAccount")) with
          | none => simp [h1, h2]
          | some feeAccount =>
            cases h4 : sdk.AccountFromPrivateKeyBytes
                (indexKey (buildPrivKeyMap deps opened.KeyBag)
                  (indexString cfg.Opts "proposalBaseAccount")) with
            | none => simp [h1, h2]
            | some proposalBaseAccount => simp [h1, h2]
  · intro v boxer opened h0 h1 h2
    refine ⟨?_, ?_⟩
    · intro name habsent
      unfold indexKey buildPrivKeyMap
      rw [buildPrivKeyMap_absent deps name opened.KeyBag _ habsent]
      rfl
    · unfold NewConnection
      simp only [h0, h1, h2]
      cases h3 : sdk.AccountFromPrivateKeyBytes
          (indexKey (buildPrivKeyMap deps opened.KeyBag)
            (indexString cfg.Opts "feeAccount")) with
      | none => exact Or.inl rfl
      | some feeAccount =>
        cases h4 : sdk.AccountFromPrivateKeyBytes
            (indexKey (buildPrivKeyMap deps opened.KeyBag)
              (indexString cfg.Opts "proposalBaseAccount")) with
        | none => exact Or.inl rfl
        | some proposalBaseAccount => exact Or.inr ⟨_, _, _, rfl, rfl, rfl⟩

/-- C8, as the code behaves, on samples: an unreadable wallet file gives an error, and
an opened keystore without the configured roles gives none. -/
theorem NewConnection_error_iff_witness :
    (∃ e, (NewConnection sampleSdk missingWalletDeps sampleConfig []).1
      = Outcome.returned (Except.error e))
    ∧ ¬ ∃ e, (NewConnection sampleSdk (sampleDeps []) sampleConfig []).1
      = Outcome.returned (Except.error e) := by
  refine ⟨(NewConnection_error_iff sampleSdk missingWalletDeps sampleConfig []).1.mpr
    (Or.inl ⟨_, rfl⟩), ?_⟩
  intro h
  rcases (NewConnection_error_iff sampleSdk (sampleDeps []) sampleConfig []).1.mp h with
    ⟨e, he⟩ | ⟨v, e, _, he⟩ | ⟨v, boxer, e, _, _, he⟩
  · cases he
  · cases he
  · cases he

/-- C8 fails on the code: the opened keystore holds one key, named `5…5`, the
configuration asks for the roles `fee` and `base`, and `NewConnection` returns no error:
it panics in `AccountFromPrivateKeyBytes` under an SDK that rejects the nil key, and
returns a connection under an SDK that accepts it. -/
theorem NewConnection_missing_role_counterexample :
    (∀ k ∈ [List.replicate 64 (5 : Fin 256)],
      (sampleDeps [List.replicate 64 5]).PublicKeyString k
        ≠ indexString sampleConfig.Opts "feeAccount")
    ∧ (∀ k ∈ [List.replicate 64 (5 : Fin 256)],
      (sampleDeps [List.replicate 64 5]).PublicKeyString k
        ≠ indexString sampleConfig.Opts "proposalBaseAccount")
    ∧ (NewConnection sampleSdk (sampleDeps [List.replicate 64 5]) sampleConfig []).1
        = Outcome.panicked
    ∧ (¬ ∃ e, (NewConnection sampleSdk (sampleDeps [List.replicate 64 5]) sampleConfig []).1
        = Outcome.returned (Except.error e))
    ∧ (∃ conn, (NewConnection lenientSdk (sampleDeps [List.replicate 64 5]) sampleConfig []).1
        = Outcome.returned (Except.ok conn))
    ∧ (¬ ∃ e, (NewConnection lenientSdk (sampleDeps [List.replicate 64 5]) sampleConfig []).1
        = Outcome.returned (Except.error e)) := by
  refine ⟨by decide, by decide, rfl, ?_, ⟨_, rfl⟩, ?_⟩
  · rintro ⟨e, he⟩
    have hp : (NewConnection sampleSdk (sampleDeps [List.replicate 64 5]) sampleConfig []).1
        = Outcome.panicked := rfl
    rw [hp] at he
    cases he
  · rintro ⟨e, he⟩
    have hp : ∃ conn,
        (NewConnection lenientSdk (sampleDeps [List.replicate 64 5]) sampleConfig []).1
          = Outcome.returned (Except.ok conn) := ⟨_, rfl⟩
    obtain ⟨conn, hc⟩ := hp
    rw [hc] at he
    cases he

end Chainbridge
